import Mathlib

/-!
# OnDocker: on-demand reverse proxy for containers

A shallow embedding of `src/OnDocker.go`.

Modelling conventions.

* Go's `int` and `int64` are 64-bit two's complement.  Config and state
  integers are kept in `Int`; every arithmetic operation the source performs
  on them goes through `wrapInt`.
* `time.Time` is an instant in nanoseconds since the Unix epoch.  `Unix()` is
  the floor to whole seconds.  Differences of wall-clock seconds are exact
  (readings of `time.Now()` fit in far fewer than 63 bits).
* The local time zone is a constant offset from UTC.
* Everything the process reads from outside (the clock, the result of
  `http.Get`, `url.Parse`) is supplied by an `Env`; the container runtime is
  the list of containers that are in state "running".
* The container runtime carries out every start and stop it is asked for.
* A Go panic is the result `none`; the state a panicking call leaves behind is
  not modelled.
-/

namespace OnDocker

/-! ## Machine integers -/

def minInt : Int := -9223372036854775808

def maxInt : Int := 9223372036854775807

/-- Two's complement reduction of an integer to the 64-bit range. -/
def wrapInt (x : Int) : Int := (x + 9223372036854775808) % 18446744073709551616 - 9223372036854775808

/-! ## time.Time -/

structure Time where
  ns : Int
deriving DecidableEq, Repr

def nsPerSec : Int := 1000000000

def nsPerDay : Int := 86400 * nsPerSec

/-- `t.Unix()`: whole seconds since the epoch (rounded down). -/
def Time.Unix (t : Time) : Int := t.ns / nsPerSec

/-- `t.After(u)`. -/
def Time.After (t u : Time) : Bool := decide (u.ns < t.ns)

/-- `t.Before(u)`. -/
def Time.Before (t u : Time) : Bool := decide (t.ns < u.ns)

/-- Nanoseconds elapsed since local midnight of the calendar day of `now`,
in the zone `zone` seconds east of UTC. -/
def timeOfDay (zone : Int) (now : Time) : Int := (now.ns + zone * nsPerSec) % nsPerDay

/-- `time.Date(now.Year(), now.Month(), now.Day(), hour, min, 0, 0, now.Location())`:
the instant of the given wall-clock hour and minute on the calendar day of `now`. -/
def dateToday (zone : Int) (now : Time) (hour min : Nat) : Time :=
  ⟨(now.ns + zone * nsPerSec) / nsPerDay * nsPerDay - zone * nsPerSec
    + ((hour : Int) * 3600 + (min : Int) * 60) * nsPerSec⟩

/-! ## time.Parse with the layout "15:04" -/

def isDigit (c : Char) : Bool := decide (48 ≤ c.toNat ∧ c.toNat ≤ 57)

/-- The helper `getnum` of Go's `time` package: one or two leading decimal
digits (two required when `fixed`), and the rest of the input. -/
def getnum (s : List Char) (fixed : Bool) : Option (Nat × List Char) :=
  match s with
  | [] => none
  | c :: rest =>
    if isDigit c then
      match rest with
      | d :: rest2 =>
        if isDigit d then some ((c.toNat - 48) * 10 + (d.toNat - 48), rest2)
        else if fixed then none else some (c.toNat - 48, rest)
      | [] => if fixed then none else some (c.toNat - 48, rest)
    else none

/-- `time.Parse("15:04", value)` followed by `Hour()` and `Minute()` of the
result; `none` is a parse error. -/
def parseClock (value : String) : Option (Nat × Nat) :=
  match getnum value.toList false with
  | none => none
  | some (hour, rest) =>
    if 24 ≤ hour then none
    else
      match rest with
      | ':' :: rest1 =>
        match getnum rest1 true with
        | none => none
        | some (min, rest2) =>
          if 60 ≤ min then none
          else if rest2.isEmpty then some (hour, min) else none
      | _ => none

/-- The source logs a parse error through `check` and goes on with the `Time`
that `time.Parse` returned with it, the zero `Time`, whose hour and minute are 0. -/
def parsedHourMinute (value : String) : Nat × Nat :=
  match parseClock value with
  | some hm => hm
  | none => (0, 0)

/-! ## Data model -/

structure containerConfig where
  helperContainers : List String
  hosts : List String
  backend : String
  maxRetries : Int
  currentRetries : Int
  inactivityTimeout : Int
  lastRequestTime : Time
  sleepStartTime : String
  sleepStopTime : String
deriving DecidableEq, Repr

/-- The map `configList` is kept as an association list; its order is the order
in which a `range` over the map visits the entries (unspecified in Go, so any
order of the list is a possible pass). -/
structure containerConfigs where
  configList : List (String × containerConfig)
  cron : Bool
deriving DecidableEq, Repr

structure pageData where
  ContainerName : String
  Timeout : Int
  CurrentRetries : Int
  MaxRetries : Int
deriving DecidableEq, Repr

/-- Outcome of `http.Get`: a transport error, or a response with its status code. -/
inductive GetResult where
  | err : GetResult
  | resp (StatusCode : Int) : GetResult
deriving DecidableEq, Repr

/-- What one invocation reads from outside the process. -/
structure Env where
  /-- Successive readings of time.Now() during the invocation. -/
  clock : Nat → Time
  /-- Offset of the local zone, seconds east of UTC. -/
  zone : Int
  /-- Result of http.Get on a URL. -/
  httpGet : String → GetResult
  /-- Host of url.Parse on a string; none when url.Parse fails. -/
  urlParse : String → Option String

/-- Calls of `startContainer` and `stopContainer` and the log lines that tell
why, in order. -/
inductive Event where
  | startContainer (containerName : String) : Event
  | stopContainer (containerName : String) : Event
  | logNoStart : Event
  | logSleepStop (containerName : String) : Event
  | logInactivity (containerName : String) : Event
deriving DecidableEq, Repr

/-- What the handler writes to the client: a rendered page, or the request
forwarded to a backend through the reverse proxy. -/
inductive Response where
  | errorPage (d : pageData) : Response
  | loadingPage (d : pageData) : Response
  | proxy (backend : String) : Response
deriving DecidableEq, Repr

structure World where
  configs : containerConfigs
  /-- Containers whose state is "running". -/
  running : List String
  /-- Number of readings of the clock taken so far in this invocation. -/
  tick : Nat
  trace : List Event

/-- The entry `configs.configList[containerName]`; `none` is the nil pointer. -/
def World.config (w : World) (containerName : String) : Option containerConfig :=
  (w.configs.configList.find? (fun p => p.1 = containerName)).map (fun p => p.2)

/-- Assignment through the pointer `configs.configList[containerName]`. -/
def World.setConfig (w : World) (containerName : String) (f : containerConfig → containerConfig) : World :=
  { w with configs := { w.configs with
      configList := w.configs.configList.map (fun p => if p.1 = containerName then (p.1, f p.2) else p) } }

def World.emit (w : World) (e : Event) : World := { w with trace := w.trace ++ [e] }

/-- `time.Now()`. -/
def timeNow (env : Env) (w : World) : Time × World := (env.clock w.tick, { w with tick := w.tick + 1 })

/-! ## isSleepTime -/

def isSleepTime (env : Env) (containerName : String) (w : World) : Option (Bool × World) :=
  match w.config containerName with
  | none => none
  | some c =>
    let configSleepStartTime := parsedHourMinute c.sleepStartTime
    let configSleepStopTime := parsedHourMinute c.sleepStopTime
    let (now, w1) := timeNow env w
    let SleepStartTime := dateToday env.zone now configSleepStartTime.1 configSleepStartTime.2
    let SleepStopTime := dateToday env.zone now configSleepStopTime.1 configSleepStopTime.2
    some (now.After SleepStartTime || now.Before SleepStopTime, w1)

/-! ## isBackendAlive -/

def isBackendAlive (env : Env) (request containerName : String) (w : World) : Option (Bool × World) :=
  match env.httpGet request with
  | GetResult.err =>
    match w.config containerName with
    | none => none
    | some c =>
      let (now, w1) := timeNow env w
      if now.Unix - c.lastRequestTime.Unix ≥ 5 then
        let w2 := w1.setConfig containerName (fun c => { c with currentRetries := wrapInt (c.currentRetries - 1) })
        let (now2, w3) := timeNow env w2
        some (false, w3.setConfig containerName (fun c => { c with lastRequestTime := now2 }))
      else some (false, w1)
  | GetResult.resp StatusCode =>
    match w.config containerName with
    | none => none
    | some _ =>
      if StatusCode = 200 then
        let w1 := w.setConfig containerName (fun c => { c with currentRetries := c.maxRetries })
        let (now, w2) := timeNow env w1
        some (true, w2.setConfig containerName (fun c => { c with lastRequestTime := now }))
      else
        let w1 := w.setConfig containerName (fun c => { c with currentRetries := wrapInt (c.currentRetries - 1) })
        let (now, w2) := timeNow env w1
        some (false, w2.setConfig containerName (fun c => { c with lastRequestTime := now }))

/-! ## The container runtime -/

/-- The group `append(helperContainers, containerName)` is running when every
member is.  Every member exists in the runtime: that is checked when the
configuration is loaded. -/
def isContainerRunning (containerName : String) (w : World) : Option Bool :=
  match w.config containerName with
  | none => none
  | some c => some ((c.helperContainers ++ [containerName]).all (fun x => decide (x ∈ w.running)))

def startContainer (env : Env) (containerName : String) (w : World) : Option World :=
  match isSleepTime env containerName (w.emit (Event.startContainer containerName)) with
  | none => none
  | some (true, w1) => some (w1.emit Event.logNoStart)
  | some (false, w1) =>
    match w1.config containerName with
    | none => none
    | some c => some { w1 with running := w1.running ++ (c.helperContainers ++ [containerName]) }

def stopContainer (containerName : String) (w : World) : Option World :=
  match w.config containerName with
  | none => none
  | some c =>
    let containerList := c.helperContainers ++ [containerName]
    some { w.emit (Event.stopContainer containerName) with
      running := w.running.filter (fun x => decide (x ∉ containerList)) }

/-! ## stopIdleContainers -/

/-- The body of the `range` loop of `stopIdleContainers`, over the entries still to visit. -/
def stopIdleLoop (env : Env) : List (String × containerConfig) → World → Option World
  | [], w => some w
  | (containerName, config) :: rest, w =>
    match isContainerRunning containerName w with
    | none => none
    | some false => stopIdleLoop env rest w
    | some true =>
      match isSleepTime env containerName w with
      | none => none
      | some (true, w1) =>
        match stopContainer containerName w1 with
        | none => none
        | some w2 => some (w2.emit (Event.logSleepStop containerName))
      | some (false, w1) =>
        let (now, w2) := timeNow env w1
        if now.Unix ≥ wrapInt (config.lastRequestTime.Unix + wrapInt (config.inactivityTimeout * 60)) then
          match stopContainer containerName (w2.emit (Event.logInactivity containerName)) with
          | none => none
          | some w3 => stopIdleLoop env rest w3
        else stopIdleLoop env rest w2

def stopIdleContainers (env : Env) (w : World) : Option World :=
  stopIdleLoop env w.configs.configList { w with tick := 0 }

/-! ## handler -/

/-- State of one run of the handler: the world, the `Host` field of the
request (the handler overwrites it before it forwards), and what has been
written to the client so far. -/
structure HandlerState where
  world : World
  Host : String
  written : List Response

/-- The body of the inner loop of `handler` for one entry of `config.hosts`.
The Boolean says that the handler has returned. -/
def handleHost (env : Env) (containerName : String) (config : containerConfig) (host : String)
    (s : HandlerState) : Option (Bool × HandlerState) :=
  match env.urlParse host with
  | none => none
  | some uHost =>
    if s.Host = uHost then
      let backend := config.backend
      match env.urlParse backend with
      | none => none
      | some _ =>
        match isContainerRunning containerName s.world with
        | none => none
        | some running =>
          match (if running then some s.world else startContainer env containerName s.world) with
          | none => none
          | some w1 =>
            match isBackendAlive env backend containerName w1 with
            | none => none
            | some (true, w2) =>
              some (false, { world := w2, Host := backend, written := s.written ++ [Response.proxy backend] })
            | some (false, w2) =>
              match w2.config containerName with
              | none => none
              | some c =>
                let d : pageData :=
                  { ContainerName := containerName, Timeout := c.inactivityTimeout,
                    CurrentRetries := c.currentRetries, MaxRetries := c.maxRetries }
                if c.currentRetries < 0 then
                  some (true, { world := w2, Host := s.Host, written := s.written ++ [Response.errorPage d] })
                else
                  some (false, { world := w2, Host := backend,
                                 written := s.written ++ [Response.loadingPage d, Response.proxy backend] })
    else some (false, s)

/-- The inner loop `for j := range config.hosts`. -/
def handleHosts (env : Env) (containerName : String) (config : containerConfig) :
    List String → HandlerState → Option (Bool × HandlerState)
  | [], s => some (false, s)
  | host :: rest, s =>
    match handleHost env containerName config host s with
    | none => none
    | some (true, s1) => some (true, s1)
    | some (false, s1) => handleHosts env containerName config rest s1

/-- The outer loop `for containerName, config := range configs.configList`. -/
def handleRoutes (env : Env) : List (String × containerConfig) → HandlerState → Option (Bool × HandlerState)
  | [], s => some (false, s)
  | (containerName, config) :: rest, s =>
    match handleHosts env containerName config config.hosts s with
    | none => none
    | some (true, s1) => some (true, s1)
    | some (false, s1) => handleRoutes env rest s1

/-- One request with `r.Host = Host`: what is written to the client, and the
world afterwards. -/
def handler (env : Env) (Host : String) (w : World) : Option (List Response × World) :=
  match handleRoutes env w.configs.configList
      { world := { w with tick := 0 }, Host := Host, written := [] } with
  | none => none
  | some (_, s) => some (s.written, s.world)

/-! ## parseConfigFile -/

structure jsonConfig where
  ContainerName : String
  HelperContainers : List String
  Hosts : List String
  Backend : String
  MaxRetries : Int
  InactivityTimeout : Int
  SleepStartTime : String
  SleepStopTime : String
deriving DecidableEq, Repr

def defaultMaxRetries : Int := 5

def defaultInactivityTimeout : Int := 10

/-- The assignment `configs.configList[name] = &c`. -/
def mapInsert (l : List (String × containerConfig)) (name : String) (c : containerConfig) :
    List (String × containerConfig) :=
  if l.any (fun p => decide (p.1 = name)) then l.map (fun p => if p.1 = name then (name, c) else p)
  else l ++ [(name, c)]

/-- The checks and the defaulting that the loop of `parseConfigFile` applies to
one entry; `now` is the reading of the clock stored in the route. -/
def parseEntry (doesContainerExist : String → Bool) (now : Time) (j : jsonConfig) : Option containerConfig :=
  if j.ContainerName = "" then none
  else if !doesContainerExist j.ContainerName then none
  else if !j.HelperContainers.all doesContainerExist then none
  else if !(List.range j.HelperContainers.length).all
      (fun i => match j.Hosts.get? i with
        | some h => decide (h ≠ "")
        | none => false) then none
  else if j.Backend = "" then none
  else
    let MaxRetries := if j.MaxRetries < 1 then defaultMaxRetries else j.MaxRetries
    let InactivityTimeout := if j.InactivityTimeout < 0 then defaultInactivityTimeout else j.InactivityTimeout
    some
      { helperContainers := j.HelperContainers, hosts := j.Hosts, backend := j.Backend,
        maxRetries := MaxRetries, currentRetries := MaxRetries,
        inactivityTimeout := InactivityTimeout, lastRequestTime := now,
        sleepStartTime := j.SleepStartTime, sleepStopTime := j.SleepStopTime }

/-- The loop of `parseConfigFile` over the entries still to read; `i` counts the
readings of the clock. -/
def parseLoop (doesContainerExist : String → Bool) (clock : Nat → Time) :
    List jsonConfig → Nat → containerConfigs → Option containerConfigs
  | [], _, configs => some configs
  | j :: rest, i, configs =>
    match parseEntry doesContainerExist (clock i) j with
    | none => none
    | some c =>
      parseLoop doesContainerExist clock rest (i + 1)
        { configList := mapInsert configs.configList j.ContainerName c,
          cron := if c.inactivityTimeout > 0 then true else configs.cron }

/-- `parseConfigFile` on the array that `json.Unmarshal` produced.  The fields
`MaxRetries` and `InactivityTimeout` are Go integers: a number outside the
64-bit range makes `json.Unmarshal` fail and the function panic. -/
def parseConfigFile (doesContainerExist : String → Bool) (clock : Nat → Time)
    (jsonConfigs : List jsonConfig) : Option containerConfigs :=
  if jsonConfigs.all (fun j => decide (minInt ≤ j.MaxRetries ∧ j.MaxRetries ≤ maxInt ∧
      minInt ≤ j.InactivityTimeout ∧ j.InactivityTimeout ≤ maxInt)) then
    parseLoop doesContainerExist clock jsonConfigs 0 { configList := [], cron := false }
  else none

/-! ## Runs -/

/-- A sequence of calls of `isBackendAlive`, each with its environment, the URL
probed and the route. -/
def probeSequence : List (Env × String × String) → World → Option World
  | [], w => some w
  | (env, request, containerName) :: rest, w =>
    match isBackendAlive env request containerName w with
    | none => none
    | some (_, w1) => probeSequence rest w1

/-- A sequence of requests with the same `Host`, each with its environment:
what each one wrote to the client, and the world at the end. -/
def requests (Host : String) : List Env → World → Option (List (List Response) × World)
  | [], w => some ([], w)
  | env :: rest, w =>
    match handler env Host w with
    | none => none
    | some (written, w1) =>
      match requests Host rest w1 with
      | none => none
      | some (more, w2) => some (written :: more, w2)

/-! ## Vocabulary of the specification -/

/-- An HTTP success status: a code of the class 2xx (Successful). -/
def httpSuccessStatus (StatusCode : Int) : Bool := decide (200 ≤ StatusCode ∧ StatusCode < 300)

/-- The string HH:MM for an hour and a minute, two decimal digits each. -/
def hhmm (hour min : Nat) : String :=
  String.mk [Char.ofNat (48 + hour / 10), Char.ofNat (48 + hour % 10), ':',
             Char.ofNat (48 + min / 10), Char.ofNat (48 + min % 10)]

/-! ## Predicates and summaries used in the statements -/

/-- What a call of `isBackendAlive` can do to the fields of a route. -/
def probeEffect (g : containerConfig → containerConfig) : Prop :=
  ∀ c, (g c).maxRetries = c.maxRetries ∧
    ((g c).currentRetries = c.currentRetries ∨ (g c).currentRetries = c.maxRetries ∨
      (g c).currentRetries = wrapInt (c.currentRetries - 1))

/-- A route as `parseConfigFile` builds it. -/
def freshRoute (c : containerConfig) : Prop :=
  c.currentRetries = c.maxRetries ∧ 1 ≤ c.maxRetries ∧ c.maxRetries ≤ maxInt

/-- The state of the retry budget of every route after at most `k` probes. -/
def budgetWithin (k : Nat) (l : List (String × containerConfig)) : Prop :=
  ∀ p ∈ l, 1 ≤ p.2.maxRetries ∧ p.2.maxRetries ≤ maxInt ∧
    p.2.maxRetries - k ≤ p.2.currentRetries ∧ p.2.currentRetries ≤ p.2.maxRetries

/-- No entry of `hosts` parses to the host `H`. -/
def noMatch (env : Env) (H : String) (hosts : List String) : Prop :=
  ∀ h ∈ hosts, ∃ u, env.urlParse h = some u ∧ u ≠ H

/-- The registry is `pre ++ (n, c) :: post` in the order of the pass, with `n`
the only entry of that name, and the hosts of the route are `hpre ++ h :: hpost`.
The entry `h` is the first one, in that order, that parses to the request host
`H`; the entries before it parse to other hosts, and no entry after it parses
to the string `backend` that the handler puts into the request host when it
forwards (a backend URL is not a host). -/
structure firstMatch (env : Env) (H : String) (pre post : List (String × containerConfig))
    (n backend : String) (hpre : List String) (h : String) (hpost : List String) : Prop where
  keysPre : ∀ p ∈ pre, p.1 ≠ n
  keysPost : ∀ p ∈ post, p.1 ≠ n
  routesPre : ∀ p ∈ pre, noMatch env H p.2.hosts
  hostsPre : noMatch env H hpre
  hostParses : env.urlParse h = some H
  backendParses : ∃ u, env.urlParse backend = some u
  hostsPost : noMatch env backend hpost
  routesPost : ∀ p ∈ post, noMatch env backend p.2.hosts

/-- The fields of a route after a probe that ended as `r`, when the probe read
`now` from the clock and, on the transport-error path, `later` next. -/
def probed (c : containerConfig) (r : GetResult) (now later : Time) : containerConfig :=
  match r with
  | GetResult.err =>
    if 5 ≤ now.Unix - c.lastRequestTime.Unix then
      { c with currentRetries := wrapInt (c.currentRetries - 1), lastRequestTime := later }
    else c
  | GetResult.resp StatusCode =>
    if StatusCode = 200 then { c with currentRetries := c.maxRetries, lastRequestTime := now }
    else { c with currentRetries := wrapInt (c.currentRetries - 1), lastRequestTime := now }

/-- The data handed to the page templates. -/
def pageOf (n : String) (c : containerConfig) : pageData :=
  { ContainerName := n, Timeout := c.inactivityTimeout, CurrentRetries := c.currentRetries,
    MaxRetries := c.maxRetries }

/-- What the handler writes for the matched route, left as `c` by the probe that ended as `r`. -/
def writtenFor (n : String) (c : containerConfig) (r : GetResult) : List Response :=
  if r = GetResult.resp 200 then [Response.proxy c.backend]
  else if c.currentRetries < 0 then [Response.errorPage (pageOf n c)]
  else [Response.loadingPage (pageOf n c), Response.proxy c.backend]

/-- The handler has returned after the error page. -/
def returnedFor (c : containerConfig) (r : GetResult) : Bool :=
  !decide (r = GetResult.resp 200) && decide (c.currentRetries < 0)

/-! ## Concrete inputs -/

/-- Nanoseconds from midnight to the given hour, minute and second. -/
def atClock (hour min sec : Int) : Int := ((hour * 60 + min) * 60 + sec) * nsPerSec

def route0 : containerConfig :=
  { helperContainers := [], hosts := ["http://a.example.com"], backend := "http://10.0.0.2:80",
    maxRetries := 5, currentRetries := 5, inactivityTimeout := 10, lastRequestTime := ⟨0⟩,
    sleepStartTime := "22:00", sleepStopTime := "06:00" }

def world0 : World :=
  { configs := { configList := [("svc", route0)], cron := true }, running := ["svc"], tick := 0, trace := [] }

/-- The route of `world0`, last requested at second 98. -/
def world98 : World :=
  world0.setConfig "svc" (fun c => { c with lastRequestTime := ⟨98000000000⟩ })

/-- An environment whose clock always reads `ns` nanoseconds and whose probes end as `r`. -/
def envAt (ns : Int) (r : GetResult) : Env :=
  { clock := fun _ => ⟨ns⟩, zone := 0, httpGet := fun _ => r,
    urlParse := fun s => if s = "http://a.example.com" then some "a.example.com" else some s }

/-- A configuration entry that leaves `maxRetries` and `inactivityTimeout` out. -/
def json0 : jsonConfig :=
  { ContainerName := "svc", HelperContainers := [], Hosts := ["http://a.example.com"],
    Backend := "http://10.0.0.2:80", MaxRetries := 0, InactivityTimeout := -1,
    SleepStartTime := "22:00", SleepStopTime := "06:00" }

/-- A route that configures no sleep window. -/
def routeNoSleep : containerConfig :=
  { route0 with sleepStartTime := "", sleepStopTime := "" }

def worldNoSleep : World :=
  { configs := { configList := [("svc", routeNoSleep)], cron := true }, running := ["svc"], tick := 0,
    trace := [] }

/-- A route with `inactivityTimeout = 0`, last requested at 11:59:50. -/
def routeNoTimeout : containerConfig :=
  { route0 with inactivityTimeout := 0, lastRequestTime := ⟨atClock 11 59 50⟩ }

/-- A route with `inactivityTimeout = 10`, last requested at 11:59:50. -/
def routeRecent : containerConfig :=
  { route0 with hosts := ["http://c.example.com"], backend := "http://10.0.0.4:80",
                lastRequestTime := ⟨atClock 11 59 50⟩ }

/-- A route with `inactivityTimeout = 10`, last requested at 11:40:00. -/
def routeIdle : containerConfig :=
  { route0 with hosts := ["http://b.example.com"], backend := "http://10.0.0.3:80",
                lastRequestTime := ⟨atClock 11 40 0⟩ }

/-- A route with `inactivityTimeout = 10`, last requested at 11:59:50, whose
sleep window is 11:00 to 13:00. -/
def routeSleeping : containerConfig :=
  { route0 with hosts := ["http://c.example.com"], backend := "http://10.0.0.4:80",
                lastRequestTime := ⟨atClock 11 59 50⟩,
                sleepStartTime := "11:00", sleepStopTime := "13:00" }

/-- A world with the given registry, in the order of the pass, every container running. -/
def worldOf (l : List (String × containerConfig)) : World :=
  { configs := { configList := l, cron := true }, running := l.map (fun p => p.1), tick := 0, trace := [] }

/-- While request `k` of a run is handled the clock reads `10 * k + 5` seconds
and a few nanoseconds more, depending on the reading. -/
def envOfRequest (k : Nat) : Env :=
  { clock := fun i => ⟨(10 * (k : Int) + 5) * nsPerSec + ((i % 1000 : Nat) : Int)⟩, zone := 0,
    httpGet := fun _ => if k < 6 then GetResult.err else GetResult.resp 200,
    urlParse := fun s => if s = "http://a.example.com" then some "a.example.com" else some s }

/-- Six probes answered with status 503, one second apart. -/
def sixFailures : List (Env × String × String) :=
  (List.range 6).map (fun k => (envAt ((k : Int) * nsPerSec) (GetResult.resp 503), "http://10.0.0.2:80", "svc"))

/-! ## Basic facts -/

theorem find_map_same (l : List (String × containerConfig)) (n : String)
    (f : containerConfig → containerConfig) :
    ((l.map (fun p => if p.1 = n then (p.1, f p.2) else p)).find? (fun p => p.1 = n)).map (fun p => p.2)
      = ((l.find? (fun p => p.1 = n)).map (fun p => p.2)).map f := by
  induction l with
  | nil => rfl
  | cons p l ih =>
    simp only [List.map_cons]
    by_cases h : p.1 = n
    · rw [List.find?_cons_of_pos, List.find?_cons_of_pos]
      · simp [h]
      · simp [h]
      · simp [h]
    · rw [List.find?_cons_of_neg, List.find?_cons_of_neg]
      · exact ih
      · simp [h]
      · simp [h]

theorem find_map_other (l : List (String × containerConfig)) (n m : String)
    (f : containerConfig → containerConfig) (hne : m ≠ n) :
    ((l.map (fun p => if p.1 = n then (p.1, f p.2) else p)).find? (fun p => p.1 = m)).map (fun p => p.2)
      = (l.find? (fun p => p.1 = m)).map (fun p => p.2) := by
  induction l with
  | nil => rfl
  | cons p l ih =>
    simp only [List.map_cons]
    by_cases h : p.1 = m
    · have h2 : ¬ p.1 = n := fun e => hne (h.symm.trans e)
      rw [List.find?_cons_of_pos, List.find?_cons_of_pos]
      · simp [h2]
      · simp [h]
      · rw [if_neg h2]
        simp [h]
    · rw [List.find?_cons_of_neg, List.find?_cons_of_neg]
      · exact ih
      · simp [h]
      · by_cases h2 : p.1 = n
        · simp [h2, h]
          exact fun e => h (h2.trans e)
        · simp [h2, h]

theorem config_setConfig (w : World) (n : String) (f : containerConfig → containerConfig) :
    (w.setConfig n f).config n = (w.config n).map f :=
  find_map_same w.configs.configList n f

theorem config_setConfig_ne (w : World) (n m : String) (f : containerConfig → containerConfig)
    (hne : m ≠ n) : (w.setConfig n f).config m = w.config m :=
  find_map_other w.configs.configList n m f hne

theorem wrapInt_of_range (x : Int) (h1 : minInt ≤ x) (h2 : x ≤ maxInt) : wrapInt x = x := by
  unfold wrapInt
  unfold minInt at h1
  unfold maxInt at h2
  omega

theorem config_tick (w : World) (t : Nat) (n : String) :
    World.config { w with tick := t } n = w.config n := rfl

/-! ## isBackendAlive: the three outcomes of a probe -/

/-- C1 (amended): for every route and every probe whose response carries status
code 200, `isBackendAlive` returns true, sets `currentRetries` to `maxRetries`
and sets `lastRequestTime` to the reading of the clock taken by the call; when
that reading is not before the old `lastRequestTime`, the field does not move
backwards. -/
theorem isBackendAlive_status_200 (env : Env) (request containerName : String) (w : World)
    (c : containerConfig) (hc : w.config containerName = some c)
    (hr : env.httpGet request = GetResult.resp 200) :
    ∃ w', isBackendAlive env request containerName w = some (true, w') ∧
      w'.config containerName =
        some { c with currentRetries := c.maxRetries, lastRequestTime := env.clock w.tick } ∧
      (c.lastRequestTime.ns ≤ (env.clock w.tick).ns →
        ∀ c', w'.config containerName = some c' → c.lastRequestTime.ns ≤ c'.lastRequestTime.ns) := by
  have key : ∃ w', isBackendAlive env request containerName w = some (true, w') ∧
      w'.config containerName =
        some { c with currentRetries := c.maxRetries, lastRequestTime := env.clock w.tick } := by
    unfold isBackendAlive
    rw [hr]
    simp only [hc, timeNow, if_true]
    refine ⟨_, rfl, ?_⟩
    rw [config_setConfig, config_tick, config_setConfig, hc]
    rfl
  obtain ⟨w', h1, h2⟩ := key
  refine ⟨w', h1, h2, ?_⟩
  intro hle c' hc'
  rw [h2] at hc'
  cases hc'
  exact hle

/-- Witness of C1 (amended): the route of `world0`, probed at second 100 with a 200 response. -/
theorem isBackendAlive_status_200_witness :
    ∃ w', isBackendAlive (envAt 100000000000 (GetResult.resp 200)) "http://10.0.0.2:80" "svc" world0
        = some (true, w') ∧
      w'.config "svc" =
        some { route0 with currentRetries := route0.maxRetries,
                           lastRequestTime := (envAt 100000000000 (GetResult.resp 200)).clock world0.tick } ∧
      (route0.lastRequestTime.ns ≤ ((envAt 100000000000 (GetResult.resp 200)).clock world0.tick).ns →
        ∀ c', w'.config "svc" = some c' → route0.lastRequestTime.ns ≤ c'.lastRequestTime.ns) :=
  isBackendAlive_status_200 (envAt 100000000000 (GetResult.resp 200)) "http://10.0.0.2:80" "svc" world0
    route0 (by decide) (by decide)

/-- C1 (counterexample): 204 No Content is an HTTP success status, yet a probe
answered with it makes `isBackendAlive` return false and costs the route one
retry (from 5 to 4). -/
theorem isBackendAlive_status_204_not_alive :
    httpSuccessStatus 204 = true ∧
    (isBackendAlive (envAt 100000000000 (GetResult.resp 204)) "http://10.0.0.2:80" "svc" world0).map
        (fun p => (p.1, p.2.config "svc"))
      = some (false, some { route0 with currentRetries := 4, lastRequestTime := ⟨100000000000⟩ }) := by
  decide

/-- C4: for every route and every probe whose response carries a status code
other than 200 (every non-success status is one), `isBackendAlive` returns
false, decrements `currentRetries` by one in 64-bit arithmetic (by exactly 1
unless the counter is at the least 64-bit integer) and sets `lastRequestTime`
to the reading of the clock, whatever the time elapsed since the previous
`lastRequestTime`: there is no debounce on this path. -/
theorem isBackendAlive_status_not_200 (env : Env) (request containerName : String) (w : World)
    (c : containerConfig) (StatusCode : Int) (hc : w.config containerName = some c)
    (hr : env.httpGet request = GetResult.resp StatusCode) (hne : StatusCode ≠ 200) :
    ∃ w', isBackendAlive env request containerName w = some (false, w') ∧
      w'.config containerName =
        some { c with currentRetries := wrapInt (c.currentRetries - 1),
                      lastRequestTime := env.clock w.tick } ∧
      (minInt < c.currentRetries → c.currentRetries ≤ maxInt →
        wrapInt (c.currentRetries - 1) = c.currentRetries - 1) := by
  unfold isBackendAlive
  rw [hr]
  simp only [hc, timeNow, if_neg hne]
  refine ⟨_, rfl, ?_, ?_⟩
  · rw [config_setConfig, config_tick, config_setConfig, hc]
    rfl
  · intro h1 h2
    apply wrapInt_of_range
    · unfold minInt at h1 ⊢
      omega
    · unfold maxInt at h2 ⊢
      omega

/-- Witness of C4: a 503 response two seconds after the previous
`lastRequestTime` (second 98, probe at second 100) still costs a retry. -/
theorem isBackendAlive_status_not_200_witness :
    ∃ w', isBackendAlive (envAt 100000000000 (GetResult.resp 503)) "http://10.0.0.2:80" "svc"
        world98
        = some (false, w') ∧
      w'.config "svc" =
        some { ({ route0 with lastRequestTime := ⟨98000000000⟩ } : containerConfig) with
                 currentRetries := wrapInt (route0.currentRetries - 1),
                 lastRequestTime := (envAt 100000000000 (GetResult.resp 503)).clock 0 } ∧
      (minInt < route0.currentRetries → route0.currentRetries ≤ maxInt →
        wrapInt (route0.currentRetries - 1) = route0.currentRetries - 1) :=
  isBackendAlive_status_not_200 (envAt 100000000000 (GetResult.resp 503)) "http://10.0.0.2:80" "svc"
    world98
    { route0 with lastRequestTime := ⟨98000000000⟩ } 503 (by decide) (by decide) (by decide)

/-! ### The transport-error path -/

theorem isBackendAlive_err_inside (env : Env) (request containerName : String) (w : World)
    (c : containerConfig) (hc : w.config containerName = some c)
    (hr : env.httpGet request = GetResult.err)
    (ht : (env.clock w.tick).Unix - c.lastRequestTime.Unix < 5) :
    isBackendAlive env request containerName w = some (false, { w with tick := w.tick + 1 }) := by
  unfold isBackendAlive
  rw [hr]
  simp only [hc, timeNow]
  rw [if_neg (by omega)]

theorem isBackendAlive_err_outside (env : Env) (request containerName : String) (w : World)
    (c : containerConfig) (hc : w.config containerName = some c)
    (hr : env.httpGet request = GetResult.err)
    (ht : 5 ≤ (env.clock w.tick).Unix - c.lastRequestTime.Unix) :
    ∃ w', isBackendAlive env request containerName w = some (false, w') ∧
      w'.config containerName =
        some { c with currentRetries := wrapInt (c.currentRetries - 1),
                      lastRequestTime := env.clock (w.tick + 1) } ∧
      w'.tick = w.tick + 2 ∧ w'.running = w.running ∧ w'.trace = w.trace ∧
      (∀ m, m ≠ containerName → w'.config m = w.config m) := by
  unfold isBackendAlive
  rw [hr]
  simp only [hc, timeNow]
  rw [if_pos (by omega)]
  refine ⟨_, rfl, ?_, rfl, rfl, rfl, ?_⟩
  · rw [config_setConfig, config_tick, config_setConfig, config_tick, hc]
    rfl
  · intro m hm
    rw [config_setConfig_ne _ _ _ _ hm, config_tick, config_setConfig_ne _ _ _ _ hm, config_tick]

theorem unix_diff_of_elapsed (now last : Time) (h : last.ns + 5 * nsPerSec ≤ now.ns) :
    5 ≤ now.Unix - last.Unix := by
  unfold Time.Unix
  unfold nsPerSec at h ⊢
  omega

theorem unix_diff_of_recent (now last : Time) (h : now.ns ≤ last.ns + 4 * nsPerSec) :
    now.Unix - last.Unix < 5 := by
  unfold Time.Unix
  unfold nsPerSec at h ⊢
  omega

/-- What the transport-error path does: `isBackendAlive` returns false and
compares the whole-second Unix timestamps of the clock and of `lastRequestTime`.
If they differ by fewer than 5 (so whenever at most 4 seconds have elapsed) the
route is left unchanged; if they differ by at least 5 (so whenever at least 5
seconds have elapsed) `currentRetries` is decremented by one in 64-bit
arithmetic and `lastRequestTime` is set to the next reading of the clock.
Consequently, of two consecutive transport-error probes of a route, the second
reading a timestamp fewer than 5 whole seconds after the one the first stored,
at most one decrements `currentRetries`. -/
theorem isBackendAlive_err_whole_seconds (env1 env2 : Env) (request containerName : String) (w : World)
    (c : containerConfig) (hc : w.config containerName = some c)
    (hr1 : env1.httpGet request = GetResult.err) (hr2 : env2.httpGet request = GetResult.err) :
    ((env1.clock w.tick).Unix - c.lastRequestTime.Unix < 5 →
      ∃ w1, isBackendAlive env1 request containerName w = some (false, w1) ∧
        w1.config containerName = some c) ∧
    ((env1.clock w.tick).ns ≤ c.lastRequestTime.ns + 4 * nsPerSec →
      (env1.clock w.tick).Unix - c.lastRequestTime.Unix < 5) ∧
    (5 ≤ (env1.clock w.tick).Unix - c.lastRequestTime.Unix →
      ∃ w1, isBackendAlive env1 request containerName w = some (false, w1) ∧
        w1.config containerName =
          some { c with currentRetries := wrapInt (c.currentRetries - 1),
                        lastRequestTime := env1.clock (w.tick + 1) }) ∧
    (c.lastRequestTime.ns + 5 * nsPerSec ≤ (env1.clock w.tick).ns →
      5 ≤ (env1.clock w.tick).Unix - c.lastRequestTime.Unix) ∧
    (minInt < c.currentRetries → c.currentRetries ≤ maxInt →
      wrapInt (c.currentRetries - 1) = c.currentRetries - 1) ∧
    (∀ w1, isBackendAlive env1 request containerName w = some (false, w1) →
      (env2.clock w1.tick).Unix - (env1.clock (w.tick + 1)).Unix < 5 →
      ∃ w2 c2, isBackendAlive env2 request containerName w1 = some (false, w2) ∧
        w2.config containerName = some c2 ∧
        (c2.currentRetries = c.currentRetries ∨
          c2.currentRetries = wrapInt (c.currentRetries - 1))) := by
  refine ⟨?_, unix_diff_of_recent _ _, ?_, unix_diff_of_elapsed _ _, ?_, ?_⟩
  · intro ht
    exact ⟨_, isBackendAlive_err_inside env1 request containerName w c hc hr1 ht, hc⟩
  · intro ht
    obtain ⟨w1, h1, h2, _⟩ := isBackendAlive_err_outside env1 request containerName w c hc hr1 ht
    exact ⟨w1, h1, h2⟩
  · intro h1 h2
    apply wrapInt_of_range
    · unfold minInt at h1 ⊢
      omega
    · unfold maxInt at h2 ⊢
      omega
  · intro w1 hrun hclose
    by_cases ht : 5 ≤ (env1.clock w.tick).Unix - c.lastRequestTime.Unix
    · obtain ⟨w1', h1, h2, _⟩ := isBackendAlive_err_outside env1 request containerName w c hc hr1 ht
      rw [h1] at hrun
      cases hrun
      refine ⟨_, _, isBackendAlive_err_inside env2 request containerName _ _ h2 hr2 hclose, h2, ?_⟩
      exact Or.inr rfl
    · have ht' : (env1.clock w.tick).Unix - c.lastRequestTime.Unix < 5 := by omega
      rw [isBackendAlive_err_inside env1 request containerName w c hc hr1 ht'] at hrun
      cases hrun
      have hc1 : World.config { w with tick := w.tick + 1 } containerName = some c := hc
      by_cases ht2 : 5 ≤ (env2.clock (w.tick + 1)).Unix - c.lastRequestTime.Unix
      · obtain ⟨w2, h1, h2, _⟩ := isBackendAlive_err_outside env2 request containerName _ c hc1 hr2 ht2
        exact ⟨w2, _, h1, h2, Or.inr rfl⟩
      · have ht2' : (env2.clock (w.tick + 1)).Unix - c.lastRequestTime.Unix < 5 := by omega
        exact ⟨_, c, isBackendAlive_err_inside env2 request containerName _ c hc1 hr2 ht2', hc1,
          Or.inl rfl⟩

/-- The route of `world0` (last request at second 0) loses a retry when probed
at second 100 and is left alone when probed at second 3. -/
theorem isBackendAlive_err_whole_seconds_example :
    (∃ w1, isBackendAlive (envAt 100000000000 GetResult.err) "http://10.0.0.2:80" "svc" world0
        = some (false, w1) ∧
      w1.config "svc" =
        some { route0 with currentRetries := wrapInt (route0.currentRetries - 1),
                           lastRequestTime := (envAt 100000000000 GetResult.err).clock (world0.tick + 1) }) ∧
    (∃ w1, isBackendAlive (envAt 3000000000 GetResult.err) "http://10.0.0.2:80" "svc" world0
        = some (false, w1) ∧
      w1.config "svc" = some route0) :=
  ⟨(isBackendAlive_err_whole_seconds (envAt 100000000000 GetResult.err) (envAt 103000000000 GetResult.err)
      "http://10.0.0.2:80" "svc" world0 route0 (by decide) (by decide) (by decide)).2.2.1 (by decide),
   (isBackendAlive_err_whole_seconds (envAt 3000000000 GetResult.err) (envAt 4000000000 GetResult.err)
      "http://10.0.0.2:80" "svc" world0 route0 (by decide) (by decide) (by decide)).1 (by decide)⟩

/-- C3 (failing input): the route of `world0` is probed at 6.9 s and again at
11.0 s, both probes ending in a transport error.  The probes are 4.1 seconds
apart, fewer than 5, so the second one is to leave the route unchanged; yet it
decrements `currentRetries` again (the Unix timestamps 6 and 11 differ by 5)
and moves `lastRequestTime`: the counter goes from 5 to 4 to 3. -/
theorem isBackendAlive_err_within_5s_decrements :
    (11000000000 : Int) - 6900000000 < 5 * nsPerSec ∧
    (isBackendAlive (envAt 6900000000 GetResult.err) "http://10.0.0.2:80" "svc" world0).map
        (fun p => (p.1, p.2.config "svc"))
      = some (false, some { route0 with currentRetries := 4, lastRequestTime := ⟨6900000000⟩ }) ∧
    ((isBackendAlive (envAt 6900000000 GetResult.err) "http://10.0.0.2:80" "svc" world0).bind
        (fun p => isBackendAlive (envAt 11000000000 GetResult.err) "http://10.0.0.2:80" "svc" p.2)).map
        (fun p => (p.1, p.2.config "svc"))
      = some (false, some { route0 with currentRetries := 3, lastRequestTime := ⟨11000000000⟩ }) := by
  decide

/-! ## The retry budget never exceeds `maxRetries` -/

theorem setConfig_setConfig_list (w : World) (t : Nat) (n : String) (f g : containerConfig → containerConfig) :
    (World.setConfig { (w.setConfig n f) with tick := t } n g).configs.configList
      = w.configs.configList.map (fun p => if p.1 = n then (p.1, g (f p.2)) else p) := by
  unfold World.setConfig
  simp only [List.map_map]
  apply List.map_congr_left
  intro p _
  by_cases h : p.1 = n
  · simp [h]
  · simp [h]

theorem isBackendAlive_configList (env : Env) (request n : String) (w w' : World) (b : Bool)
    (h : isBackendAlive env request n w = some (b, w')) :
    ∃ g, probeEffect g ∧
      w'.configs.configList = w.configs.configList.map (fun p => if p.1 = n then (p.1, g p.2) else p) := by
  unfold isBackendAlive at h
  cases hr : env.httpGet request with
  | err =>
    rw [hr] at h
    cases hc : w.config n with
    | none => simp [hc] at h
    | some c =>
      simp only [hc, timeNow] at h
      by_cases ht : (env.clock w.tick).Unix - c.lastRequestTime.Unix ≥ 5
      · rw [if_pos ht] at h
        simp only [Option.some.injEq, Prod.mk.injEq] at h
        obtain ⟨_, rfl⟩ := h
        refine ⟨fun c => { c with currentRetries := wrapInt (c.currentRetries - 1),
                                  lastRequestTime := env.clock (w.tick + 1) }, ?_, ?_⟩
        · intro c
          exact ⟨rfl, Or.inr (Or.inr rfl)⟩
        · exact setConfig_setConfig_list { w with tick := w.tick + 1 } _ n _ _
      · rw [if_neg ht] at h
        simp only [Option.some.injEq, Prod.mk.injEq] at h
        obtain ⟨_, rfl⟩ := h
        refine ⟨id, ?_, ?_⟩
        · intro c
          exact ⟨rfl, Or.inl rfl⟩
        · simp
  | resp code =>
    rw [hr] at h
    cases hc : w.config n with
    | none => simp [hc] at h
    | some c =>
      simp only [hc, timeNow] at h
      by_cases ht : code = 200
      · rw [if_pos ht] at h
        simp only [Option.some.injEq, Prod.mk.injEq] at h
        obtain ⟨_, rfl⟩ := h
        refine ⟨fun c => { c with currentRetries := c.maxRetries,
                                  lastRequestTime := env.clock w.tick }, ?_, ?_⟩
        · intro c
          exact ⟨rfl, Or.inr (Or.inl rfl)⟩
        · exact setConfig_setConfig_list w _ n _ _
      · rw [if_neg ht] at h
        simp only [Option.some.injEq, Prod.mk.injEq] at h
        obtain ⟨_, rfl⟩ := h
        refine ⟨fun c => { c with currentRetries := wrapInt (c.currentRetries - 1),
                                  lastRequestTime := env.clock w.tick }, ?_, ?_⟩
        · intro c
          exact ⟨rfl, Or.inr (Or.inr rfl)⟩
        · exact setConfig_setConfig_list w _ n _ _

theorem parseEntry_fresh (ex : String → Bool) (now : Time) (j : jsonConfig) (c : containerConfig)
    (hj : j.MaxRetries ≤ maxInt) (h : parseEntry ex now j = some c) : freshRoute c := by
  unfold parseEntry at h
  split_ifs at h
  all_goals
    simp only [Option.some.injEq] at h
    subst h
    unfold freshRoute
    simp only [defaultMaxRetries, maxInt] at hj ⊢
    refine ⟨trivial, ?_, ?_⟩ <;> omega

theorem mapInsert_mem (l : List (String × containerConfig)) (n : String) (c : containerConfig)
    (p : String × containerConfig) (hp : p ∈ mapInsert l n c) : p ∈ l ∨ p = (n, c) := by
  unfold mapInsert at hp
  split_ifs at hp
  · rw [List.mem_map] at hp
    obtain ⟨q, hq, hqp⟩ := hp
    by_cases h : q.1 = n
    · rw [if_pos h] at hqp
      exact Or.inr hqp.symm
    · rw [if_neg h] at hqp
      exact Or.inl (hqp ▸ hq)
  · rw [List.mem_append, List.mem_singleton] at hp
    exact hp

theorem parseLoop_fresh (ex : String → Bool) (clock : Nat → Time) (js : List jsonConfig) :
    ∀ (i : Nat) (configs cfgs : containerConfigs),
      (∀ j ∈ js, j.MaxRetries ≤ maxInt) →
      (∀ p ∈ configs.configList, freshRoute p.2) →
      parseLoop ex clock js i configs = some cfgs →
      ∀ p ∈ cfgs.configList, freshRoute p.2 := by
  induction js with
  | nil =>
    intro i configs cfgs _ h0 h
    simp only [parseLoop, Option.some.injEq] at h
    subst h
    exact h0
  | cons j rest ih =>
    intro i configs cfgs hjs h0 h
    simp only [parseLoop] at h
    cases he : parseEntry ex (clock i) j with
    | none => simp [he] at h
    | some c =>
      simp only [he] at h
      refine ih _ _ _ (fun j' hj' => hjs j' (List.mem_cons_of_mem _ hj')) ?_ h
      intro p hp
      rcases mapInsert_mem _ _ _ _ hp with h1 | h1
      · exact h0 p h1
      · rw [h1]
        exact parseEntry_fresh ex _ j c (hjs j (List.mem_cons_self _ _)) he

theorem parseConfigFile_fresh (ex : String → Bool) (clock : Nat → Time) (js : List jsonConfig)
    (cfgs : containerConfigs) (h : parseConfigFile ex clock js = some cfgs) :
    ∀ p ∈ cfgs.configList, freshRoute p.2 := by
  unfold parseConfigFile at h
  split_ifs at h with hall
  refine parseLoop_fresh ex clock js 0 _ cfgs ?_ ?_ h
  · intro j hj
    rw [List.all_eq_true] at hall
    have := hall j hj
    simp only [decide_eq_true_eq] at this
    exact this.2.1
  · intro p hp
    simp at hp

theorem isBackendAlive_budget (env : Env) (request n : String) (w w' : World) (b : Bool) (k : Nat)
    (hk : (k : Int) < 9223372036854775808) (hinv : budgetWithin k w.configs.configList)
    (h : isBackendAlive env request n w = some (b, w')) :
    budgetWithin (k + 1) w'.configs.configList := by
  obtain ⟨g, hg, hl⟩ := isBackendAlive_configList env request n w w' b h
  intro p hp
  rw [hl, List.mem_map] at hp
  obtain ⟨q, hq, hqp⟩ := hp
  obtain ⟨h1, h2, h3, h4⟩ := hinv q hq
  by_cases hn : q.1 = n
  · rw [if_pos hn] at hqp
    subst hqp
    obtain ⟨hm, hcur⟩ := hg q.2
    simp only
    rw [hm]
    have hw : wrapInt (q.2.currentRetries - 1) = q.2.currentRetries - 1 := by
      apply wrapInt_of_range
      · unfold minInt
        omega
      · unfold maxInt at h2 ⊢
        omega
    rcases hcur with hc | hc | hc
    · rw [hc]
      push_cast
      omega
    · rw [hc]
      push_cast
      omega
    · rw [hc, hw]
      push_cast
      omega
  · rw [if_neg hn] at hqp
    subst hqp
    push_cast
    omega

theorem probeSequence_budget (ps : List (Env × String × String)) :
    ∀ (k : Nat) (w w' : World), ((k + ps.length : Nat) : Int) ≤ 9223372036854775808 →
      budgetWithin k w.configs.configList → probeSequence ps w = some w' →
      budgetWithin (k + ps.length) w'.configs.configList := by
  induction ps with
  | nil =>
    intro k w w' _ hinv h
    simp only [probeSequence, Option.some.injEq] at h
    subst h
    exact hinv
  | cons e rest ih =>
    intro k w w' hk hinv h
    obtain ⟨env, request, n⟩ := e
    simp only [probeSequence] at h
    cases hb : isBackendAlive env request n w with
    | none => simp [hb] at h
    | some r =>
      obtain ⟨b, w1⟩ := r
      simp only [hb] at h
      simp only [List.length_cons] at hk ⊢
      have h1 := isBackendAlive_budget env request n w w1 b k (by push_cast at hk; omega) hinv hb
      have h2 := ih (k + 1) w1 w' (by push_cast at hk ⊢; omega) h1 h
      have e : k + (rest.length + 1) = k + 1 + rest.length := by omega
      rw [e]
      exact h2

theorem isBackendAlive_total (env : Env) (request n : String) (w : World) (c : containerConfig)
    (hc : w.config n = some c) : ∃ b w', isBackendAlive env request n w = some (b, w') := by
  unfold isBackendAlive
  cases env.httpGet request with
  | err =>
    simp only [hc, timeNow]
    split_ifs
    · exact ⟨_, _, rfl⟩
    · exact ⟨_, _, rfl⟩
  | resp code =>
    simp only [hc, timeNow]
    split_ifs
    · exact ⟨_, _, rfl⟩
    · exact ⟨_, _, rfl⟩

/-- C2: `currentRetries ≤ maxRetries` is an invariant of every route.  Every
route that `parseConfigFile` produces has `currentRetries = maxRetries ≥ 1`;
the bound holds after every sequence of fewer than 2^63 calls of
`isBackendAlive` on the parsed registry, whatever the outcomes of the probes
and the readings of the clock; and a single call on a route found in the map
returns and preserves the bound (the counter being above the least 64-bit
integer, as it is in every such run). -/
theorem currentRetries_le_maxRetries (doesContainerExist : String → Bool) (clock : Nat → Time)
    (jsonConfigs : List jsonConfig) (cfgs : containerConfigs)
    (hparse : parseConfigFile doesContainerExist clock jsonConfigs = some cfgs) :
    (∀ p ∈ cfgs.configList, p.2.currentRetries = p.2.maxRetries ∧ 1 ≤ p.2.maxRetries ∧
      p.2.currentRetries ≤ p.2.maxRetries) ∧
    (∀ (w w' : World) (ps : List (Env × String × String)), w.configs = cfgs →
      (ps.length : Int) < 9223372036854775808 → probeSequence ps w = some w' →
      ∀ p ∈ w'.configs.configList, p.2.currentRetries ≤ p.2.maxRetries) ∧
    (∀ (env : Env) (request n : String) (w : World) (c : containerConfig),
      w.config n = some c →
      (∀ p ∈ w.configs.configList, minInt < p.2.currentRetries ∧
        p.2.currentRetries ≤ p.2.maxRetries ∧ p.2.maxRetries ≤ maxInt) →
      ∃ b w', isBackendAlive env request n w = some (b, w') ∧
        ∀ p ∈ w'.configs.configList, p.2.currentRetries ≤ p.2.maxRetries) := by
  have hfresh := parseConfigFile_fresh doesContainerExist clock jsonConfigs cfgs hparse
  refine ⟨?_, ?_, ?_⟩
  · intro p hp
    obtain ⟨h1, h2, _⟩ := hfresh p hp
    exact ⟨h1, h2, le_of_eq h1⟩
  · intro w w' ps hw hlen hrun
    have h0 : budgetWithin 0 w.configs.configList := by
      intro p hp
      rw [hw] at hp
      obtain ⟨h1, h2, h3⟩ := hfresh p hp
      refine ⟨h2, h3, ?_, le_of_eq h1⟩
      rw [h1]
      simp
    have h := probeSequence_budget ps 0 w w' (by push_cast; omega) h0 hrun
    intro p hp
    exact (h p hp).2.2.2
  · intro env request n w c hc hinv
    obtain ⟨b, w', hrun⟩ := isBackendAlive_total env request n w c hc
    refine ⟨b, w', hrun, ?_⟩
    obtain ⟨g, hg, hl⟩ := isBackendAlive_configList env request n w w' b hrun
    intro p hp
    rw [hl, List.mem_map] at hp
    obtain ⟨q, hq, hqp⟩ := hp
    obtain ⟨h1, h2, h3⟩ := hinv q hq
    by_cases hn : q.1 = n
    · rw [if_pos hn] at hqp
      subst hqp
      obtain ⟨hm, hcur⟩ := hg q.2
      simp only
      rw [hm]
      have hw : wrapInt (q.2.currentRetries - 1) = q.2.currentRetries - 1 := by
        apply wrapInt_of_range
        · unfold minInt at h1 ⊢
          omega
        · unfold maxInt at h3 ⊢
          omega
      rcases hcur with hc | hc | hc
      · rw [hc]
        exact h2
      · rw [hc]
      · rw [hc, hw]
        omega
    · rw [if_neg hn] at hqp
      subst hqp
      exact h2

/-- Witness of C2: the registry parsed from the single entry `json0`; six
failed probes take its route below 0, to -1, and not above `maxRetries`. -/
theorem currentRetries_le_maxRetries_witness :
    ((∀ p ∈ (containerConfigs.mk [("svc", route0)] true).configList,
      p.2.currentRetries = p.2.maxRetries ∧ 1 ≤ p.2.maxRetries ∧
      p.2.currentRetries ≤ p.2.maxRetries) ∧
    (∀ (w w' : World) (ps : List (Env × String × String)),
      w.configs = containerConfigs.mk [("svc", route0)] true →
      (ps.length : Int) < 9223372036854775808 → probeSequence ps w = some w' →
      ∀ p ∈ w'.configs.configList, p.2.currentRetries ≤ p.2.maxRetries) ∧
    (∀ (env : Env) (request n : String) (w : World) (c : containerConfig),
      w.config n = some c →
      (∀ p ∈ w.configs.configList, minInt < p.2.currentRetries ∧
        p.2.currentRetries ≤ p.2.maxRetries ∧ p.2.maxRetries ≤ maxInt) →
      ∃ b w', isBackendAlive env request n w = some (b, w') ∧
        ∀ p ∈ w'.configs.configList, p.2.currentRetries ≤ p.2.maxRetries)) ∧
    (probeSequence sixFailures world0).map
        (fun w => (w.config "svc").map (fun c => (c.currentRetries, c.maxRetries)))
      = some (some (-1, 5)) :=
  ⟨currentRetries_le_maxRetries (fun _ => true) (fun _ => ⟨0⟩) [json0]
    (containerConfigs.mk [("svc", route0)] true) (by decide), by decide⟩

/-! ## isSleepTime -/

set_option maxRecDepth 100000 in
theorem parseClock_hhmm_fin :
    ∀ h : Fin 24, ∀ m : Fin 60, parseClock (hhmm h.val m.val) = some (h.val, m.val) := by
  decide

/-- Every well-formed HH:MM string is parsed to its hour and minute. -/
theorem parseClock_hhmm (hour min : Nat) (hh : hour < 24) (hm : min < 60) :
    parseClock (hhmm hour min) = some (hour, min) :=
  parseClock_hhmm_fin ⟨hour, hh⟩ ⟨min, hm⟩

theorem sub_dateToday (zone : Int) (now : Time) (hour min : Nat) :
    now.ns - (dateToday zone now hour min).ns
      = timeOfDay zone now - ((hour : Int) * 3600 + (min : Int) * 60) * nsPerSec := by
  unfold dateToday timeOfDay nsPerDay nsPerSec
  simp only
  omega

/-- C6 (amended): for every route whose `sleepStartTime` and `sleepStopTime`
parse under the layout HH:MM (every well-formed HH:MM string does, see
`parseClock_hhmm`) and every reading `now` of the clock, `isSleepTime` returns
true if and only if `now` is strictly after S or before E, where S and E are
today's date at the configured start and stop hour and minute, seconds zero;
equivalently, the time of day is strictly after the start or before the stop. -/
theorem isSleepTime_iff (env : Env) (containerName : String) (w : World) (c : containerConfig)
    (h1 m1 h2 m2 : Nat) (hc : w.config containerName = some c)
    (hs : parseClock c.sleepStartTime = some (h1, m1))
    (he : parseClock c.sleepStopTime = some (h2, m2)) :
    ∃ b w', isSleepTime env containerName w = some (b, w') ∧
      (b = true ↔
        (dateToday env.zone (env.clock w.tick) h1 m1).ns < (env.clock w.tick).ns ∨
        (env.clock w.tick).ns < (dateToday env.zone (env.clock w.tick) h2 m2).ns) ∧
      (b = true ↔
        ((h1 : Int) * 3600 + (m1 : Int) * 60) * nsPerSec < timeOfDay env.zone (env.clock w.tick) ∨
        timeOfDay env.zone (env.clock w.tick) < ((h2 : Int) * 3600 + (m2 : Int) * 60) * nsPerSec) := by
  have key : isSleepTime env containerName w =
      some ((env.clock w.tick).After (dateToday env.zone (env.clock w.tick) h1 m1) ||
            (env.clock w.tick).Before (dateToday env.zone (env.clock w.tick) h2 m2),
            { w with tick := w.tick + 1 }) := by
    unfold isSleepTime
    simp only [hc, parsedHourMinute, hs, he, timeNow]
  refine ⟨_, _, key, ?_, ?_⟩
  · simp only [Time.After, Time.Before, Bool.or_eq_true, decide_eq_true_eq]
  · have e1 := sub_dateToday env.zone (env.clock w.tick) h1 m1
    have e2 := sub_dateToday env.zone (env.clock w.tick) h2 m2
    simp only [Time.After, Time.Before, Bool.or_eq_true, decide_eq_true_eq]
    constructor
    · rintro (h | h)
      · left
        omega
      · right
        omega
    · rintro (h | h)
      · left
        omega
      · right
        omega

/-- Witness of C6 (amended): with the window 22:00 to 06:00 of `route0` the
function returns true at 23:30 and at 05:00 and false at 12:00. -/
theorem isSleepTime_iff_witness :
    (∃ b w', isSleepTime (envAt (atClock 23 30 0) GetResult.err) "svc" world0 = some (b, w') ∧
      (b = true ↔
        (dateToday 0 ⟨atClock 23 30 0⟩ 22 0).ns < atClock 23 30 0 ∨
        atClock 23 30 0 < (dateToday 0 ⟨atClock 23 30 0⟩ 6 0).ns) ∧
      (b = true ↔
        (((22 : Nat) : Int) * 3600 + ((0 : Nat) : Int) * 60) * nsPerSec
            < timeOfDay 0 ⟨atClock 23 30 0⟩ ∨
        timeOfDay 0 ⟨atClock 23 30 0⟩
            < (((6 : Nat) : Int) * 3600 + ((0 : Nat) : Int) * 60) * nsPerSec)) ∧
    (isSleepTime (envAt (atClock 23 30 0) GetResult.err) "svc" world0).map (fun p => p.1) = some true ∧
    (isSleepTime (envAt (atClock 5 0 0) GetResult.err) "svc" world0).map (fun p => p.1) = some true ∧
    (isSleepTime (envAt (atClock 12 0 0) GetResult.err) "svc" world0).map (fun p => p.1) = some false :=
  ⟨isSleepTime_iff (envAt (atClock 23 30 0) GetResult.err) "svc" world0 route0 22 0 6 0
      (by decide) (by decide) (by decide),
   by decide, by decide, by decide⟩

/-- C6 (counterexample): with the window 22:00 to 06:00, at 22:00:00 sharp the
current time is at least S (it equals S), yet `isSleepTime` returns false. -/
theorem isSleepTime_at_start_false :
    (dateToday 0 ⟨atClock 22 0 0⟩ 22 0).ns ≤ atClock 22 0 0 ∧
    (isSleepTime (envAt (atClock 22 0 0) GetResult.err) "svc" world0).map (fun p => p.1) = some false := by
  decide

/-- With both sleep times empty `isSleepTime` returns true at every time of day
other than midnight sharp. -/
theorem isSleepTime_no_window_general (env : Env) (containerName : String) (w : World)
    (c : containerConfig) (hc : w.config containerName = some c)
    (hs : c.sleepStartTime = "") (he : c.sleepStopTime = "")
    (hday : timeOfDay env.zone (env.clock w.tick) ≠ 0) :
    isSleepTime env containerName w = some (true, { w with tick := w.tick + 1 }) := by
  have hp : parsedHourMinute "" = (0, 0) := by decide
  have e := sub_dateToday env.zone (env.clock w.tick) 0 0
  have hpos : 0 ≤ timeOfDay env.zone (env.clock w.tick) := by
    unfold timeOfDay nsPerDay nsPerSec
    omega
  unfold isSleepTime
  simp only [hc, hs, he, hp, timeNow, Time.After, Time.Before]
  have hlt : (dateToday env.zone (env.clock w.tick) 0 0).ns < (env.clock w.tick).ns := by
    simp only [Nat.cast_zero, zero_mul, add_zero] at e
    omega
  simp [hlt]

/-- C7 (failing input): a route whose `sleepStartTime` and `sleepStopTime` are
both empty, at 12:00.  Both parses fail, the zero time stands in for both
bounds (00:00), and `isSleepTime` returns true; `startContainer` then refuses to
start the stopped group, and a pass of `stopIdleContainers` stops the running
group with the sleep-window reason. -/
theorem isSleepTime_empty_window_true :
    parseClock "" = none ∧
    (isSleepTime (envAt (atClock 12 0 0) GetResult.err) "svc" worldNoSleep).map (fun p => p.1)
      = some true ∧
    (startContainer (envAt (atClock 12 0 0) GetResult.err) "svc"
        { worldNoSleep with running := [] }).map (fun w => (w.running, w.trace))
      = some ([], [Event.startContainer "svc", Event.logNoStart]) ∧
    (stopIdleContainers (envAt (atClock 12 0 0) GetResult.err) worldNoSleep).map
        (fun w => (w.running, w.trace))
      = some ([], [Event.stopContainer "svc", Event.logSleepStop "svc"]) := by
  decide

/-- The pass takes the inactivity branch for every running route with
`inactivityTimeout = 0` that is outside its sleep window, unless its
`lastRequestTime` lies in the future. -/
theorem stopIdleLoop_zero_timeout_general (env : Env) (n : String) (c : containerConfig)
    (rest : List (String × containerConfig)) (w w1 : World)
    (hrun : isContainerRunning n w = some true)
    (hsleep : isSleepTime env n w = some (false, w1))
    (hto : c.inactivityTimeout = 0)
    (hlo : minInt ≤ c.lastRequestTime.Unix) (hhi : c.lastRequestTime.Unix ≤ maxInt)
    (hnow : c.lastRequestTime.Unix ≤ (env.clock w1.tick).Unix) :
    stopIdleLoop env ((n, c) :: rest) w
      = match stopContainer n
            (World.emit { w1 with tick := w1.tick + 1 } (Event.logInactivity n)) with
        | none => none
        | some w3 => stopIdleLoop env rest w3 := by
  have h0 : wrapInt (c.lastRequestTime.Unix + wrapInt (c.inactivityTimeout * 60))
      = c.lastRequestTime.Unix := by
    rw [hto]
    have hz : wrapInt (0 * 60) = 0 := by decide
    rw [hz, add_zero]
    exact wrapInt_of_range _ hlo hhi
  simp only [stopIdleLoop, hrun, hsleep, timeNow, h0, ge_iff_le, if_pos hnow]

/-- When the pass visits a running route inside its sleep window it stops that
route and ends: the entries `rest` still to visit are not looked at. -/
theorem stopIdleLoop_sleep_general (env : Env) (n : String) (c : containerConfig)
    (rest : List (String × containerConfig)) (w w1 : World)
    (hrun : isContainerRunning n w = some true)
    (hsleep : isSleepTime env n w = some (true, w1)) :
    stopIdleLoop env ((n, c) :: rest) w
      = (stopContainer n w1).map (fun w2 => w2.emit (Event.logSleepStop n)) := by
  simp only [stopIdleLoop, hrun, hsleep]
  cases stopContainer n w1 <;> rfl

theorem isSleepTime_world (env : Env) (n : String) (w w1 : World) (b : Bool)
    (h : isSleepTime env n w = some (b, w1)) : w1 = { w with tick := w.tick + 1 } := by
  unfold isSleepTime at h
  cases hc : w.config n with
  | none => simp [hc] at h
  | some c =>
    simp only [hc, timeNow, Option.some.injEq, Prod.mk.injEq] at h
    exact h.2.symm

theorem stopContainer_trace (n : String) (w w2 : World) (h : stopContainer n w = some w2) :
    w2.trace = w.trace ++ [Event.stopContainer n] := by
  unfold stopContainer at h
  cases hc : w.config n with
  | none => simp [hc] at h
  | some c =>
    simp only [hc, Option.some.injEq] at h
    subst h
    rfl

/-- Visiting routes other than `n` adds no call of `stopContainer` for `n`. -/
theorem stopIdleLoop_count_other (env : Env) (n : String) (l : List (String × containerConfig)) :
    ∀ (w w' : World), (∀ p ∈ l, p.1 ≠ n) → stopIdleLoop env l w = some w' →
      w'.trace.count (Event.stopContainer n) = w.trace.count (Event.stopContainer n) := by
  induction l with
  | nil =>
    intro w w' _ h
    simp only [stopIdleLoop, Option.some.injEq] at h
    subst h
    rfl
  | cons p rest ih =>
    intro w w' hl h
    obtain ⟨m, c⟩ := p
    have hm : m ≠ n := hl (m, c) (List.mem_cons_self _ _)
    have hne : Event.stopContainer m ≠ Event.stopContainer n := fun e => hm (Event.stopContainer.inj e)
    have hrest : ∀ p ∈ rest, p.1 ≠ n := fun p hp => hl p (List.mem_cons_of_mem _ hp)
    simp only [stopIdleLoop] at h
    cases hr : isContainerRunning m w with
    | none => simp [hr] at h
    | some b =>
      cases b with
      | false =>
        simp only [hr] at h
        exact ih w w' hrest h
      | true =>
        simp only [hr] at h
        cases hs : isSleepTime env m w with
        | none => simp [hs] at h
        | some r =>
          obtain ⟨b, w1⟩ := r
          have hw1 := isSleepTime_world env m w w1 b hs
          cases b with
          | true =>
            simp only [hs] at h
            cases hst : stopContainer m w1 with
            | none => simp [hst] at h
            | some w2 =>
              simp only [hst, Option.some.injEq] at h
              subst h
              have ht := stopContainer_trace m w1 w2 hst
              simp only [World.emit, ht, hw1, List.count_append, List.count_singleton]
              simp [hne]
          | false =>
            simp only [hs, timeNow] at h
            split_ifs at h
            · cases hst : stopContainer m (World.emit { w1 with tick := w1.tick + 1 } (Event.logInactivity m)) with
              | none => simp [hst] at h
              | some w3 =>
                simp only [hst] at h
                rw [ih w3 w' hrest h, stopContainer_trace m _ w3 hst]
                simp only [World.emit, hw1, List.count_append, List.count_singleton]
                simp [hne]
            · rw [ih _ w' hrest h, hw1]

/-- When the pass reaches a route with `inactivityTimeout = 10` while its group is
running and its last request lies at least 600 seconds back, it calls
`stopContainer` for it exactly once, whatever the routes still to visit are. -/
theorem stopIdleLoop_stops_once_general (env : Env) (n : String) (c : containerConfig)
    (post : List (String × containerConfig)) (w w' : World)
    (hpost : ∀ p ∈ post, p.1 ≠ n)
    (hrun : isContainerRunning n w = some true)
    (hto : c.inactivityTimeout = 10)
    (hlo : minInt ≤ c.lastRequestTime.Unix) (hhi : c.lastRequestTime.Unix + 600 ≤ maxInt)
    (hidle : ∀ i, c.lastRequestTime.Unix + 600 ≤ (env.clock i).Unix)
    (h : stopIdleLoop env ((n, c) :: post) w = some w') :
    w'.trace.count (Event.stopContainer n) = w.trace.count (Event.stopContainer n) + 1 := by
  have h600 : wrapInt (c.lastRequestTime.Unix + wrapInt (c.inactivityTimeout * 60))
      = c.lastRequestTime.Unix + 600 := by
    rw [hto]
    have hz : wrapInt (10 * 60) = 600 := by decide
    rw [hz]
    apply wrapInt_of_range
    · unfold minInt at hlo ⊢
      omega
    · exact hhi
  simp only [stopIdleLoop, hrun] at h
  cases hs : isSleepTime env n w with
  | none => simp [hs] at h
  | some r =>
    obtain ⟨b, w1⟩ := r
    have hw1 := isSleepTime_world env n w w1 b hs
    cases b with
    | true =>
      simp only [hs] at h
      cases hst : stopContainer n w1 with
      | none => simp [hst] at h
      | some w2 =>
        simp only [hst, Option.some.injEq] at h
        subst h
        have ht := stopContainer_trace n w1 w2 hst
        simp only [World.emit, ht, hw1, List.count_append, List.count_singleton]
        simp
    | false =>
      simp only [hs, timeNow, h600, ge_iff_le, if_pos (hidle w1.tick)] at h
      cases hst : stopContainer n (World.emit { w1 with tick := w1.tick + 1 } (Event.logInactivity n)) with
      | none => simp [hst] at h
      | some w3 =>
        simp only [hst] at h
        rw [stopIdleLoop_count_other env n post w3 w' hpost h, stopContainer_trace n _ w3 hst]
        simp only [World.emit, hw1, List.count_append, List.count_singleton]
        simp

/-- C8 (failing input): a registry of two running routes at 12:00, neither in
its sleep window; the first has `inactivityTimeout = 0` and was requested ten
seconds ago.  The pass takes the inactivity branch for it and stops it. -/
theorem stopIdleContainers_zero_timeout_stopped :
    (isSleepTime (envAt (atClock 12 0 0) GetResult.err) "svc-a"
        (worldOf [("svc-a", routeNoTimeout), ("svc-c", routeRecent)])).map (fun p => p.1) = some false ∧
    (stopIdleContainers (envAt (atClock 12 0 0) GetResult.err)
        (worldOf [("svc-a", routeNoTimeout), ("svc-c", routeRecent)])).map
        (fun w => (w.running, w.trace))
      = some (["svc-c"], [Event.logInactivity "svc-a", Event.stopContainer "svc-a"]) := by
  decide

/-- C9 (failing input): at 12:00 the registry holds a route inside its sleep
window and a route with `inactivityTimeout = 10` idle for twenty minutes, both
running.  When the pass visits the sleeping route first it stops that one and
returns: `stopContainer` is not called for the idle route.  In the other
order the pass reaches the idle route and calls it once, as
`stopIdleLoop_stops_once_general` says of every pass that reaches it. -/
theorem stopIdleContainers_returns_after_sleep_stop :
    (stopIdleContainers (envAt (atClock 12 0 0) GetResult.err)
        (worldOf [("svc-c", routeSleeping), ("svc-b", routeIdle)])).map
        (fun w => (w.running, w.trace, w.trace.count (Event.stopContainer "svc-b")))
      = some (["svc-b"], [Event.stopContainer "svc-c", Event.logSleepStop "svc-c"], 0) ∧
    (stopIdleContainers (envAt (atClock 12 0 0) GetResult.err)
        (worldOf [("svc-b", routeIdle), ("svc-c", routeSleeping)])).map
        (fun w => (w.running, w.trace, w.trace.count (Event.stopContainer "svc-b")))
      = some ([], [Event.logInactivity "svc-b", Event.stopContainer "svc-b",
                   Event.stopContainer "svc-c", Event.logSleepStop "svc-c"], 1) := by
  decide

/-! ## handler: a request that matches a host entry of a route -/

theorem map_update_decomp (pre post : List (String × containerConfig)) (n : String)
    (c : containerConfig) (g : containerConfig → containerConfig)
    (kpre : ∀ p ∈ pre, p.1 ≠ n) (kpost : ∀ p ∈ post, p.1 ≠ n) :
    (pre ++ (n, c) :: post).map (fun p => if p.1 = n then (p.1, g p.2) else p)
      = pre ++ (n, g c) :: post := by
  have hid : ∀ l : List (String × containerConfig), (∀ p ∈ l, p.1 ≠ n) →
      l.map (fun p => if p.1 = n then (p.1, g p.2) else p) = l := by
    intro l hl
    induction l with
    | nil => rfl
    | cons q l ih =>
      rw [List.map_cons, if_neg (hl q (List.mem_cons_self _ _)),
        ih (fun p hp => hl p (List.mem_cons_of_mem _ hp))]
  rw [List.map_append, List.map_cons, hid pre kpre, hid post kpost]
  simp

theorem find_decomp (pre post : List (String × containerConfig)) (n : String) (c : containerConfig)
    (kpre : ∀ p ∈ pre, p.1 ≠ n) :
    ((pre ++ (n, c) :: post).find? (fun p => p.1 = n)).map (fun p => p.2) = some c := by
  induction pre with
  | nil => simp
  | cons q l ih =>
    rw [List.cons_append, List.find?_cons_of_neg]
    · exact ih (fun p hp => kpre p (List.mem_cons_of_mem _ hp))
    · simpa using kpre q (List.mem_cons_self _ _)

theorem config_decomp (w : World) (pre post : List (String × containerConfig)) (n : String)
    (c : containerConfig) (hL : w.configs.configList = pre ++ (n, c) :: post)
    (kpre : ∀ p ∈ pre, p.1 ≠ n) : w.config n = some c := by
  unfold World.config
  rw [hL]
  exact find_decomp pre post n c kpre

/-- `isBackendAlive` on the matched route: the result and the registry afterwards. -/
theorem isBackendAlive_decomp (env : Env) (request n : String) (w : World)
    (pre post : List (String × containerConfig)) (c : containerConfig)
    (hL : w.configs.configList = pre ++ (n, c) :: post)
    (kpre : ∀ p ∈ pre, p.1 ≠ n) (kpost : ∀ p ∈ post, p.1 ≠ n) :
    ∃ w', isBackendAlive env request n w
        = some (decide (env.httpGet request = GetResult.resp 200), w') ∧
      w'.configs.configList
        = pre ++ (n, probed c (env.httpGet request) (env.clock w.tick) (env.clock (w.tick + 1))) :: post ∧
      w'.configs.cron = w.configs.cron := by
  have hc := config_decomp w pre post n c hL kpre
  unfold isBackendAlive probed
  cases hr : env.httpGet request with
  | err =>
    simp only [hc, timeNow]
    by_cases ht : 5 ≤ (env.clock w.tick).Unix - c.lastRequestTime.Unix
    · rw [if_pos ht, if_pos ht]
      refine ⟨_, rfl, ?_, rfl⟩
      rw [setConfig_setConfig_list, hL]
      exact map_update_decomp pre post n c
        (fun c => { c with currentRetries := wrapInt (c.currentRetries - 1),
                           lastRequestTime := env.clock (w.tick + 1) }) kpre kpost
    · rw [if_neg ht, if_neg ht]
      exact ⟨_, rfl, hL, rfl⟩
  | resp code =>
    simp only [hc, timeNow]
    by_cases h200 : code = 200
    · subst h200
      simp only [if_true]
      refine ⟨_, rfl, ?_, rfl⟩
      rw [setConfig_setConfig_list, hL]
      exact map_update_decomp pre post n c
        (fun c => { c with currentRetries := c.maxRetries, lastRequestTime := env.clock w.tick })
        kpre kpost
    · rw [if_neg h200, if_neg h200]
      have hd : decide (GetResult.resp code = GetResult.resp 200) = false := by
        simp [h200]
      rw [hd]
      refine ⟨_, rfl, ?_, rfl⟩
      rw [setConfig_setConfig_list, hL]
      exact map_update_decomp pre post n c
        (fun c => { c with currentRetries := wrapInt (c.currentRetries - 1),
                           lastRequestTime := env.clock w.tick }) kpre kpost

theorem handleHosts_noMatch (env : Env) (n : String) (c : containerConfig) (hosts : List String)
    (s : HandlerState) (hno : noMatch env s.Host hosts) :
    handleHosts env n c hosts s = some (false, s) := by
  induction hosts with
  | nil => rfl
  | cons h rest ih =>
    obtain ⟨u, hu, hne⟩ := hno h (List.mem_cons_self _ _)
    have hstep : handleHost env n c h s = some (false, s) := by
      unfold handleHost
      simp only [hu]
      rw [if_neg (fun e => hne e.symm)]
    simp only [handleHosts, hstep]
    exact ih (fun h' hh' => hno h' (List.mem_cons_of_mem _ hh'))

theorem handleRoutes_noMatch (env : Env) (l : List (String × containerConfig)) (s : HandlerState)
    (hno : ∀ p ∈ l, noMatch env s.Host p.2.hosts) : handleRoutes env l s = some (false, s) := by
  induction l with
  | nil => rfl
  | cons p rest ih =>
    obtain ⟨n, c⟩ := p
    simp only [handleRoutes, handleHosts_noMatch env n c c.hosts s (hno (n, c) (List.mem_cons_self _ _))]
    exact ih (fun q hq => hno q (List.mem_cons_of_mem _ hq))

theorem handleHosts_append (env : Env) (n : String) (c : containerConfig) (l1 l2 : List String)
    (s s1 : HandlerState) (h1 : handleHosts env n c l1 s = some (false, s1)) :
    handleHosts env n c (l1 ++ l2) s = handleHosts env n c l2 s1 := by
  induction l1 generalizing s with
  | nil =>
    simp only [handleHosts, Option.some.injEq, Prod.mk.injEq, true_and] at h1
    subst h1
    rfl
  | cons h rest ih =>
    simp only [List.cons_append, handleHosts] at h1 ⊢
    cases hh : handleHost env n c h s with
    | none => simp [hh] at h1
    | some r =>
      obtain ⟨b, s2⟩ := r
      cases b with
      | true => simp [hh] at h1
      | false =>
        simp only [hh] at h1 ⊢
        exact ih s2 h1

theorem handleRoutes_append (env : Env) (l1 l2 : List (String × containerConfig))
    (s s1 : HandlerState) (h1 : handleRoutes env l1 s = some (false, s1)) :
    handleRoutes env (l1 ++ l2) s = handleRoutes env l2 s1 := by
  induction l1 generalizing s with
  | nil =>
    simp only [handleRoutes, Option.some.injEq, Prod.mk.injEq, true_and] at h1
    subst h1
    rfl
  | cons p rest ih =>
    obtain ⟨n, c⟩ := p
    simp only [List.cons_append, handleRoutes] at h1 ⊢
    cases hh : handleHosts env n c c.hosts s with
    | none => simp [hh] at h1
    | some r =>
      obtain ⟨b, s2⟩ := r
      cases b with
      | true => simp [hh] at h1
      | false =>
        simp only [hh] at h1 ⊢
        exact ih s2 h1

theorem isSleepTime_configs (env : Env) (n : String) (w w' : World) (b : Bool)
    (h : isSleepTime env n w = some (b, w')) : w'.configs = w.configs ∧ w'.tick = w.tick + 1 := by
  unfold isSleepTime at h
  cases hc : w.config n with
  | none => simp [hc] at h
  | some c =>
    simp only [hc, timeNow, Option.some.injEq, Prod.mk.injEq] at h
    obtain ⟨_, rfl⟩ := h
    exact ⟨rfl, rfl⟩

theorem isSleepTime_total (env : Env) (n : String) (w : World) (c : containerConfig)
    (hc : w.config n = some c) : ∃ b w', isSleepTime env n w = some (b, w') := by
  unfold isSleepTime
  simp only [hc, timeNow]
  exact ⟨_, _, rfl⟩

/-- The step `if !isContainerRunning(name) { startContainer(name) }` leaves the
registry as it is and reads the clock at most once. -/
theorem start_if_stopped (env : Env) (n : String) (w : World) (c : containerConfig)
    (hc : w.config n = some c) (running : Bool) :
    ∃ w1, (if running then some w else startContainer env n w) = some w1 ∧
      w1.configs = w.configs ∧ (w1.tick = w.tick ∨ w1.tick = w.tick + 1) := by
  cases running with
  | true => exact ⟨w, rfl, rfl, Or.inl rfl⟩
  | false =>
    simp only [Bool.false_eq_true, if_false]
    unfold startContainer
    obtain ⟨b, w', hs⟩ := isSleepTime_total env n (w.emit (Event.startContainer n)) c hc
    obtain ⟨hcfg, htick⟩ := isSleepTime_configs env n _ w' b hs
    rw [hs]
    cases b with
    | true => exact ⟨_, rfl, hcfg, Or.inr htick⟩
    | false =>
      have hc' : w'.config n = some c := by
        unfold World.config at hc ⊢
        rw [hcfg]
        exact hc
      simp only [hc']
      exact ⟨_, rfl, hcfg, Or.inr htick⟩

theorem probed_backend (c : containerConfig) (r : GetResult) (now later : Time) :
    (probed c r now later).backend = c.backend := by
  cases r with
  | err =>
    simp only [probed]
    split_ifs <;> rfl
  | resp code =>
    simp only [probed]
    split_ifs <;> rfl

theorem handleHost_matched (env : Env) (n : String) (c : containerConfig) (h : String)
    (s : HandlerState) (pre post : List (String × containerConfig))
    (hL : s.world.configs.configList = pre ++ (n, c) :: post)
    (kpre : ∀ p ∈ pre, p.1 ≠ n) (kpost : ∀ p ∈ post, p.1 ≠ n)
    (hh : env.urlParse h = some s.Host) (hb : ∃ u, env.urlParse c.backend = some u) :
    ∃ j w', (j = s.world.tick ∨ j = s.world.tick + 1) ∧
      handleHost env n c h s
        = some (returnedFor (probed c (env.httpGet c.backend) (env.clock j) (env.clock (j + 1)))
                  (env.httpGet c.backend),
            { world := w',
              Host := if returnedFor
                        (probed c (env.httpGet c.backend) (env.clock j) (env.clock (j + 1)))
                        (env.httpGet c.backend)
                      then s.Host else c.backend,
              written := s.written ++
                writtenFor n (probed c (env.httpGet c.backend) (env.clock j) (env.clock (j + 1)))
                  (env.httpGet c.backend) }) ∧
      w'.configs.configList
        = pre ++ (n, probed c (env.httpGet c.backend) (env.clock j) (env.clock (j + 1))) :: post ∧
      w'.configs.cron = s.world.configs.cron := by
  have hc := config_decomp s.world pre post n c hL kpre
  obtain ⟨u, hu⟩ := hb
  have hrun : ∃ b, isContainerRunning n s.world = some b := by
    unfold isContainerRunning
    simp only [hc]
    exact ⟨_, rfl⟩
  obtain ⟨b, hb⟩ := hrun
  obtain ⟨w1, hw1, hcfg1, htick1⟩ := start_if_stopped env n s.world c hc b
  have hL1 : w1.configs.configList = pre ++ (n, c) :: post := by
    rw [hcfg1]
    exact hL
  obtain ⟨w2, hw2, hL2, hcron2⟩ :=
    isBackendAlive_decomp env c.backend n w1 pre post c hL1 kpre kpost
  have hc2 := config_decomp w2 pre post n _ hL2 kpre
  refine ⟨w1.tick, w2, htick1, ?_, hL2, ?_⟩
  · unfold handleHost
    simp only [hh, if_true, hu, hb, hw1, hw2]
    by_cases h200 : env.httpGet c.backend = GetResult.resp 200
    · simp [h200, returnedFor, writtenFor, probed_backend]
    · simp only [h200, decide_False, hc2, returnedFor, writtenFor, Bool.not_false, Bool.true_and,
        if_false]
      by_cases hneg :
          (probed c (env.httpGet c.backend) (env.clock w1.tick) (env.clock (w1.tick + 1))).currentRetries < 0
      · simp [hneg, pageOf]
      · simp [hneg, pageOf, probed_backend]
  · rw [hcron2, hcfg1]

/-- The handler on a request whose first match is the host entry `h` of the
route `n`: what it writes, and the registry afterwards.  The probe reads `env.clock j`, where `j` is
the number of readings taken before it (one if the group had to be started). -/
theorem handler_matched (env : Env) (H : String) (w : World)
    (pre post : List (String × containerConfig)) (n : String) (c : containerConfig)
    (hpre : List String) (h : String) (hpost : List String)
    (hL : w.configs.configList = pre ++ (n, c) :: post) (hhosts : c.hosts = hpre ++ h :: hpost)
    (hm : firstMatch env H pre post n c.backend hpre h hpost) :
    ∃ j w', j ≤ 1 ∧
      handler env H w
        = some (writtenFor n (probed c (env.httpGet c.backend) (env.clock j) (env.clock (j + 1)))
                  (env.httpGet c.backend), w') ∧
      w'.configs.configList
        = pre ++ (n, probed c (env.httpGet c.backend) (env.clock j) (env.clock (j + 1))) :: post ∧
      w'.configs.cron = w.configs.cron := by
  obtain ⟨j, w', hj, hstep, hL', hcron⟩ :=
    handleHost_matched env n c h
      { world := { w with tick := 0 }, Host := H, written := [] } pre post hL hm.keysPre hm.keysPost
      hm.hostParses hm.backendParses
  refine ⟨j, w', ?_, ?_, hL', hcron⟩
  · simp only at hj
    omega
  unfold handler
  rw [hL, handleRoutes_append env pre _ _ _ (handleRoutes_noMatch env pre _ hm.routesPre)]
  simp only [handleRoutes]
  rw [hhosts, handleHosts_append env n c hpre _ _ _ (handleHosts_noMatch env n c hpre _ hm.hostsPre)]
  simp only [handleHosts, hstep]
  cases hret : returnedFor (probed c (env.httpGet c.backend) (env.clock j) (env.clock (j + 1)))
      (env.httpGet c.backend) with
  | true => simp
  | false =>
    simp only [Bool.false_eq_true, if_false]
    rw [handleHosts_noMatch env n c hpost _ hm.hostsPost]
    simp only
    rw [handleRoutes_noMatch env post _ hm.routesPost]
    simp

/-- A registry of one route with one host entry, requested by that host. -/
theorem firstMatch_single (env : Env) (H n backend h u : String)
    (hh : env.urlParse h = some H) (hb : env.urlParse backend = some u) :
    firstMatch env H [] [] n backend [] h [] :=
  { keysPre := fun _ hp => absurd hp (List.not_mem_nil _)
    keysPost := fun _ hp => absurd hp (List.not_mem_nil _)
    routesPre := fun _ hp => absurd hp (List.not_mem_nil _)
    hostsPre := fun _ hp => absurd hp (List.not_mem_nil _)
    hostParses := hh
    backendParses := ⟨u, hb⟩
    hostsPost := fun _ hp => absurd hp (List.not_mem_nil _)
    routesPost := fun _ hp => absurd hp (List.not_mem_nil _) }

/-- C5 (amended): a request whose host matches a host entry of a route (the
first such entry in the order of the pass) sets that route's `lastRequestTime`
to the time of the request (a reading of the clock taken while the request is
handled) when the probe is answered with a status code, 200 or any other, and
when it fails with a transport error and the Unix timestamps of the request and
of the old `lastRequestTime` differ by at least 5; when the probe fails with a
transport error inside the debounce window (the timestamps differ by fewer than
5) `lastRequestTime` is left as it was.  The probe reads `env.clock j`, and
`env.clock (j + 1)` next; `j` is 1 when the handler had to call `startContainer`
first and 0 otherwise. -/
theorem handler_lastRequestTime (env : Env) (H : String) (w : World)
    (pre post : List (String × containerConfig)) (n : String) (c : containerConfig)
    (hpre : List String) (h : String) (hpost : List String)
    (hL : w.configs.configList = pre ++ (n, c) :: post) (hhosts : c.hosts = hpre ++ h :: hpost)
    (hm : firstMatch env H pre post n c.backend hpre h hpost) :
    ∃ written w' c' j, j ≤ 1 ∧ handler env H w = some (written, w') ∧ w'.config n = some c' ∧
      (∀ StatusCode, env.httpGet c.backend = GetResult.resp StatusCode →
        c'.lastRequestTime = env.clock j) ∧
      (env.httpGet c.backend = GetResult.err →
        5 ≤ (env.clock j).Unix - c.lastRequestTime.Unix →
        c'.lastRequestTime = env.clock (j + 1)) ∧
      (env.httpGet c.backend = GetResult.err →
        (env.clock j).Unix - c.lastRequestTime.Unix < 5 →
        c'.lastRequestTime = c.lastRequestTime) := by
  obtain ⟨j, w', hj, hrun, hL', _⟩ := handler_matched env H w pre post n c hpre h hpost hL hhosts hm
  refine ⟨_, w', _, j, hj, hrun, config_decomp w' pre post n _ hL' hm.keysPre, ?_, ?_, ?_⟩
  · intro code hcode
    rw [hcode]
    simp only [probed]
    split_ifs <;> rfl
  · intro herr ht
    rw [herr]
    simp only [probed, if_pos ht]
  · intro herr ht
    rw [herr]
    have hn : ¬ 5 ≤ (env.clock j).Unix - c.lastRequestTime.Unix := by omega
    simp only [probed, if_neg hn]

/-- Witness of C5 (amended): the route of `world0` (last request at second 0),
requested at second 100 while its backend answers 503. -/
theorem handler_lastRequestTime_witness :
    ∃ written w' c' j, j ≤ 1 ∧
      handler (envAt 100000000000 (GetResult.resp 503)) "a.example.com" world0 = some (written, w') ∧
      w'.config "svc" = some c' ∧
      (∀ StatusCode, (envAt 100000000000 (GetResult.resp 503)).httpGet route0.backend
          = GetResult.resp StatusCode →
        c'.lastRequestTime = (envAt 100000000000 (GetResult.resp 503)).clock j) ∧
      ((envAt 100000000000 (GetResult.resp 503)).httpGet route0.backend = GetResult.err →
        5 ≤ ((envAt 100000000000 (GetResult.resp 503)).clock j).Unix - route0.lastRequestTime.Unix →
        c'.lastRequestTime = (envAt 100000000000 (GetResult.resp 503)).clock (j + 1)) ∧
      ((envAt 100000000000 (GetResult.resp 503)).httpGet route0.backend = GetResult.err →
        ((envAt 100000000000 (GetResult.resp 503)).clock j).Unix - route0.lastRequestTime.Unix < 5 →
        c'.lastRequestTime = route0.lastRequestTime) :=
  handler_lastRequestTime (envAt 100000000000 (GetResult.resp 503)) "a.example.com" world0
    [] [] "svc" route0 [] "http://a.example.com" [] rfl rfl
    (firstMatch_single _ _ _ _ _ "http://10.0.0.2:80" (by decide) (by decide))

/-- C5 (counterexample): the route was last requested at second 98; a matched
request at second 100 whose probe fails with a transport error is served the
loading page and leaves `lastRequestTime` at second 98. -/
theorem handler_debounced_keeps_lastRequestTime :
    (handler (envAt 100000000000 GetResult.err) "a.example.com" world98).map
        (fun p => (p.1, p.2.config "svc"))
      = some ([Response.loadingPage { ContainerName := "svc", Timeout := 10, CurrentRetries := 5,
                                      MaxRetries := 5 },
               Response.proxy "http://10.0.0.2:80"],
              some { route0 with lastRequestTime := ⟨98000000000⟩ }) ∧
    (envAt 100000000000 GetResult.err).clock 0 = ⟨100000000000⟩ ∧
    (envAt 100000000000 GetResult.err).clock 1 = ⟨100000000000⟩ ∧
    (Time.mk 98000000000) ≠ ⟨100000000000⟩ := by
  decide

/-! ## Retry exhaustion, end to end -/

/-- A matched request whose probe fails with a transport error at least 5
seconds after `lastRequestTime`, on a route with `currentRetries = m + 1`. -/
theorem handler_err_step (env : Env) (H : String) (w : World)
    (pre post : List (String × containerConfig)) (n : String) (c : containerConfig)
    (hpre : List String) (h : String) (hpost : List String)
    (hL : w.configs.configList = pre ++ (n, c) :: post) (hhosts : c.hosts = hpre ++ h :: hpost)
    (hm : firstMatch env H pre post n c.backend hpre h hpost)
    (herr : env.httpGet c.backend = GetResult.err)
    (hel : ∀ i, c.lastRequestTime.ns + 5 * nsPerSec ≤ (env.clock i).ns)
    (m : Int) (hcur : c.currentRetries = m + 1) (hlo : minInt ≤ m) (hhi : m ≤ maxInt) :
    ∃ w' j, handler env H w
        = some (if m < 0 then [Response.errorPage ⟨n, c.inactivityTimeout, m, c.maxRetries⟩]
                else [Response.loadingPage ⟨n, c.inactivityTimeout, m, c.maxRetries⟩,
                      Response.proxy c.backend], w') ∧
      w'.configs.configList
        = pre ++ (n, { c with currentRetries := m, lastRequestTime := env.clock j }) :: post := by
  obtain ⟨j, w', _, hrun, hL', _⟩ := handler_matched env H w pre post n c hpre h hpost hL hhosts hm
  have hp : probed c (env.httpGet c.backend) (env.clock j) (env.clock (j + 1))
      = { c with currentRetries := m, lastRequestTime := env.clock (j + 1) } := by
    rw [herr]
    have hw : wrapInt (c.currentRetries - 1) = m := by
      rw [hcur]
      have e : m + 1 - 1 = m := by omega
      rw [e]
      exact wrapInt_of_range m hlo hhi
    simp only [probed, if_pos (unix_diff_of_elapsed (env.clock j) c.lastRequestTime (hel j)), hw]
  rw [hp] at hrun hL'
  refine ⟨w', j + 1, ?_, hL'⟩
  rw [hrun, herr]
  simp only [writtenFor, pageOf]
  by_cases hneg : m < 0
  · simp [hneg]
  · simp [hneg]

/-- C10: retry exhaustion end to end.  A route with `maxRetries = 5` and
`currentRetries = 5` receives seven matched requests; the first is handled at
least 5 seconds after `lastRequestTime` and each of the next five at least 5
seconds after the one before (every reading of the clock during a request is
that much later than every reading during the previous one).  The probes of the
first six fail with a transport error, the probe of the seventh is answered
with status 200.  The first five requests are served the loading page, with
`currentRetries` 4, 3, 2, 1 and 0, and are then forwarded; the sixth takes the
counter to -1, is served the error page and is not forwarded; the seventh
resets the counter to 5 and is forwarded with no page rendered. -/
theorem retry_exhaustion (envs : Nat → Env) (H : String) (w : World)
    (pre post : List (String × containerConfig)) (n : String) (c : containerConfig)
    (hpre : List String) (h : String) (hpost : List String)
    (hL : w.configs.configList = pre ++ (n, c) :: post) (hhosts : c.hosts = hpre ++ h :: hpost)
    (hm : ∀ k, k < 7 → firstMatch (envs k) H pre post n c.backend hpre h hpost)
    (hmax : c.maxRetries = 5) (hcur : c.currentRetries = 5)
    (herr : ∀ k, k < 6 → (envs k).httpGet c.backend = GetResult.err)
    (hok : (envs 6).httpGet c.backend = GetResult.resp 200)
    (hfirst : ∀ i, c.lastRequestTime.ns + 5 * nsPerSec ≤ ((envs 0).clock i).ns)
    (hgap : ∀ k, k < 5 → ∀ i j,
      ((envs k).clock i).ns + 5 * nsPerSec ≤ ((envs (k + 1)).clock j).ns) :
    ∃ w' j, requests H [envs 0, envs 1, envs 2, envs 3, envs 4, envs 5, envs 6] w
        = some ([[Response.loadingPage ⟨n, c.inactivityTimeout, 4, 5⟩, Response.proxy c.backend],
                 [Response.loadingPage ⟨n, c.inactivityTimeout, 3, 5⟩, Response.proxy c.backend],
                 [Response.loadingPage ⟨n, c.inactivityTimeout, 2, 5⟩, Response.proxy c.backend],
                 [Response.loadingPage ⟨n, c.inactivityTimeout, 1, 5⟩, Response.proxy c.backend],
                 [Response.loadingPage ⟨n, c.inactivityTimeout, 0, 5⟩, Response.proxy c.backend],
                 [Response.errorPage ⟨n, c.inactivityTimeout, -1, 5⟩],
                 [Response.proxy c.backend]], w') ∧
      w'.config n = some { c with currentRetries := 5, lastRequestTime := (envs 6).clock j } := by
  obtain ⟨w1, j1, r1, L1⟩ := handler_err_step (envs 0) H w pre post n c hpre h hpost hL hhosts
    (hm 0 (by omega)) (herr 0 (by omega)) hfirst 4 (by rw [hcur]; rfl) (by decide) (by decide)
  obtain ⟨w2, j2, r2, L2⟩ := handler_err_step (envs 1) H w1 pre post n
    { c with currentRetries := 4, lastRequestTime := (envs 0).clock j1 } hpre h hpost L1 hhosts
    (hm 1 (by omega)) (herr 1 (by omega)) (fun i => hgap 0 (by omega) j1 i) (3)
    (by show (4 : Int) = 3 + 1; decide) (by decide) (by decide)
  replace L2 : w2.configs.configList
      = pre ++ (n, { c with currentRetries := 3, lastRequestTime := (envs 1).clock j2 }) :: post :=
    L2
  obtain ⟨w3, j3, r3, L3⟩ := handler_err_step (envs 2) H w2 pre post n
    { c with currentRetries := 3, lastRequestTime := (envs 1).clock j2 } hpre h hpost L2 hhosts
    (hm 2 (by omega)) (herr 2 (by omega)) (fun i => hgap 1 (by omega) j2 i) (2)
    (by show (3 : Int) = 2 + 1; decide) (by decide) (by decide)
  replace L3 : w3.configs.configList
      = pre ++ (n, { c with currentRetries := 2, lastRequestTime := (envs 2).clock j3 }) :: post :=
    L3
  obtain ⟨w4, j4, r4, L4⟩ := handler_err_step (envs 3) H w3 pre post n
    { c with currentRetries := 2, lastRequestTime := (envs 2).clock j3 } hpre h hpost L3 hhosts
    (hm 3 (by omega)) (herr 3 (by omega)) (fun i => hgap 2 (by omega) j3 i) (1)
    (by show (2 : Int) = 1 + 1; decide) (by decide) (by decide)
  replace L4 : w4.configs.configList
      = pre ++ (n, { c with currentRetries := 1, lastRequestTime := (envs 3).clock j4 }) :: post :=
    L4
  obtain ⟨w5, j5, r5, L5⟩ := handler_err_step (envs 4) H w4 pre post n
    { c with currentRetries := 1, lastRequestTime := (envs 3).clock j4 } hpre h hpost L4 hhosts
    (hm 4 (by omega)) (herr 4 (by omega)) (fun i => hgap 3 (by omega) j4 i) (0)
    (by show (1 : Int) = 0 + 1; decide) (by decide) (by decide)
  replace L5 : w5.configs.configList
      = pre ++ (n, { c with currentRetries := 0, lastRequestTime := (envs 4).clock j5 }) :: post :=
    L5
  obtain ⟨w6, j6, r6, L6⟩ := handler_err_step (envs 5) H w5 pre post n
    { c with currentRetries := 0, lastRequestTime := (envs 4).clock j5 } hpre h hpost L5 hhosts
    (hm 5 (by omega)) (herr 5 (by omega)) (fun i => hgap 4 (by omega) j5 i) (-1)
    (by show (0 : Int) = -1 + 1; decide) (by decide) (by decide)
  replace L6 : w6.configs.configList
      = pre ++ (n, { c with currentRetries := -1, lastRequestTime := (envs 5).clock j6 }) :: post :=
    L6
  obtain ⟨j7, w7, _, r7, L7, _⟩ := handler_matched (envs 6) H w6 pre post n
    { c with currentRetries := -1, lastRequestTime := (envs 5).clock j6 } hpre h hpost L6 hhosts
    (hm 6 (by omega))
  refine ⟨w7, j7, ?_, ?_⟩
  · simp only [requests, r1, r2, r3, r4, r5, r6, r7, hok, hmax, writtenFor, probed]
    simp
  · rw [config_decomp w7 pre post n _ L7 (hm 0 (by omega)).keysPre, hok]
    simp only [probed, if_true, hmax]

/-- Witness of C10: the route of `world0` (last request at second 0), requested
at seconds 5, 15, 25, 35, 45, 55 and 65. -/
theorem retry_exhaustion_witness :
    ∃ w' j, requests "a.example.com"
        [envOfRequest 0, envOfRequest 1, envOfRequest 2, envOfRequest 3, envOfRequest 4,
         envOfRequest 5, envOfRequest 6] world0
        = some ([[Response.loadingPage ⟨"svc", route0.inactivityTimeout, 4, 5⟩,
                  Response.proxy route0.backend],
                 [Response.loadingPage ⟨"svc", route0.inactivityTimeout, 3, 5⟩,
                  Response.proxy route0.backend],
                 [Response.loadingPage ⟨"svc", route0.inactivityTimeout, 2, 5⟩,
                  Response.proxy route0.backend],
                 [Response.loadingPage ⟨"svc", route0.inactivityTimeout, 1, 5⟩,
                  Response.proxy route0.backend],
                 [Response.loadingPage ⟨"svc", route0.inactivityTimeout, 0, 5⟩,
                  Response.proxy route0.backend],
                 [Response.errorPage ⟨"svc", route0.inactivityTimeout, -1, 5⟩],
                 [Response.proxy route0.backend]], w') ∧
      w'.config "svc"
        = some { route0 with currentRetries := 5, lastRequestTime := (envOfRequest 6).clock j } :=
  retry_exhaustion envOfRequest "a.example.com" world0 [] [] "svc" route0 []
    "http://a.example.com" [] rfl rfl
    (fun k _ => firstMatch_single _ _ _ _ _ "http://10.0.0.2:80" rfl rfl)
    rfl rfl
    (fun k hk => by simp [envOfRequest, hk])
    (by decide)
    (fun i => by simp only [envOfRequest, route0, nsPerSec]; omega)
    (fun k _ i j => by simp only [envOfRequest, nsPerSec]; push_cast; omega)

end OnDocker
